import Mathlib

/-!
# Predictive fault detection and settlement: a shallow embedding

The definitions below embed, function by function, the parts of the repository
whose behaviour is stated and proved further down:

* `checkThreshold`, `getLastNReadings`, `storeHashes` and `simulateReadings` of
  `backend/predictiveMaintenanceService.js`;
* `payTechnicianFor` of `frontend/src/components/AdminActions.jsx`;
* the `POST /gasCosts` and `DELETE /gasCosts` handlers of `backend/server.js`;
* the ban check and the Report Fault condition of
  `frontend/src/components/FloatingAssetPanel.jsx`.

JavaScript numbers are IEEE-754 doubles.  They are modelled by `JSNumber`
(NaN, the two infinities, and signed finite values with a rational magnitude)
and every arithmetic result is rounded to the nearest double, ties to even
(`JSNumber.roundMag`; for instance `roundMag_tenth` below is the familiar double
nearest to 0.1).  Ledger and network calls are inputs of the model: each function
takes the answers of its collaborators and returns the effects it issues.
-/

namespace MaintenanceReview

/-! ## JavaScript numbers -/

/-- A JavaScript number: NaN, plus or minus infinity, or a finite value
`(-1)^neg * mag` with `0 ≤ mag` (so `fin true 0` is the negative zero). -/
inductive JSNumber where
  | nan : JSNumber
  | inf (neg : Bool) : JSNumber
  | fin (neg : Bool) (mag : ℚ) : JSNumber
  deriving DecidableEq

namespace JSNumber

/-- The rational value of a sign and magnitude pair. -/
def signed (neg : Bool) (mag : ℚ) : ℚ := if neg then -mag else mag

/-- The number with rational value `q` (zero is the positive zero). -/
def ofRat (q : ℚ) : JSNumber := fin (decide (q < 0)) |q|

/-- The JavaScript comparison `a > b`: false as soon as one side is NaN. -/
def gt : JSNumber → JSNumber → Bool
  | nan, _ => false
  | _, nan => false
  | inf true, _ => false
  | inf false, inf false => false
  | inf false, _ => true
  | fin _ _, inf neg => neg
  | fin s m, fin t n => decide (signed t n < signed s m)

/-- Rounding of a rational `0 ≤ y` to the nearest natural number, ties to even. -/
def roundHalfEven (y : ℚ) : ℕ :=
  let f := ⌊y⌋₊
  if y - f < 1 / 2 then f
  else if 1 / 2 < y - f then f + 1
  else if f % 2 = 0 then f else f + 1

/-- The binary exponent of the unit in the last place of the doubles around
`0 ≤ x`: doubles carry 53 significant bits and the smallest positive one is
`2 ^ (-1074)`, so the exponent is `⌊log2 x⌋ - 52` and never below `-1074`. -/
def ulpExp (x : ℚ) : ℤ := ((Nat.log2 ⌊x * 2 ^ 1074⌋₊ - 52 : ℕ) : ℤ) - 1074

/-- Rounding of a magnitude `0 ≤ x` to the nearest double (ties to even);
`none` when the result overflows the double range. -/
def roundMag (x : ℚ) : Option ℚ :=
  let v := (roundHalfEven (x / 2 ^ ulpExp x) : ℚ) * 2 ^ ulpExp x
  if v < 2 ^ 1024 then some v else none

/-- The double nearest to `(-1)^neg * x`, for `0 ≤ x`; overflow gives infinity. -/
def round (neg : Bool) (x : ℚ) : JSNumber :=
  match roundMag x with
  | some v => fin neg v
  | none => inf neg

/-- The JavaScript product `a * b`. -/
def mul : JSNumber → JSNumber → JSNumber
  | nan, _ => nan
  | _, nan => nan
  | inf s, inf t => inf (xor s t)
  | inf s, fin t n => if n = 0 then nan else inf (xor s t)
  | fin s m, inf t => if m = 0 then nan else inf (xor s t)
  | fin s m, fin t n => round (xor s t) (m * n)

/-- The JavaScript quotient `a / b`. -/
def div : JSNumber → JSNumber → JSNumber
  | nan, _ => nan
  | _, nan => nan
  | inf _, inf _ => nan
  | inf s, fin t _ => inf (xor s t)
  | fin s _, inf t => fin (xor s t) 0
  | fin s m, fin t n =>
    if n = 0 then (if m = 0 then nan else inf (xor s t)) else round (xor s t) (m / n)

/-- JavaScript truthiness of a number: false for NaN and for both zeros. -/
def truthy : JSNumber → Bool
  | nan => false
  | inf _ => true
  | fin _ m => decide (m ≠ 0)

/-- The strings `x.toFixed(18)` can return: an optional minus sign followed by
the decimal digits of `n` with exactly 18 of them after the point, or a string
that is not of that shape (`NaN`, `Infinity`, `-Infinity`, or the exponent form
used from `10 ^ 21` on). -/
inductive Fixed18 where
  | decimal (neg : Bool) (n : ℕ) : Fixed18
  | notDecimal : Fixed18
  deriving DecidableEq

/-- JavaScript `x.toFixed(18)`: for a finite `|x| < 10 ^ 21` the integer `n`
with `n / 10 ^ 18` closest to `|x|`, the larger one on a tie; the minus sign is
written for `x < 0` only (not for the negative zero). -/
def toFixed18 : JSNumber → Fixed18
  | nan => Fixed18.notDecimal
  | inf _ => Fixed18.notDecimal
  | fin s m =>
    if 10 ^ 21 ≤ m then Fixed18.notDecimal
    else Fixed18.decimal (s && decide (m ≠ 0)) ⌊m * 10 ^ 18 + 1 / 2⌋₊

end JSNumber

/-! ## The anomaly detector (`predictiveMaintenanceService.js`) -/

/-- Source: `const TEMP_THRESHOLD = 70;`. -/
def TEMP_THRESHOLD : JSNumber := JSNumber.ofRat 70

/-- Source: `const THRESHOLD_COUNT = 3;`. -/
def THRESHOLD_COUNT : Nat := 3

/-- The object `consecutiveHighTempCount`: one counter per asset id.  A counter
is a JavaScript number that only ever holds a count, modelled as a natural
number. -/
abbrev Counters := Nat → Nat

/-- Source: the initial value `{ 0: 0, 1: 0, 2: 0 }` of `consecutiveHighTempCount`. -/
def initialCounters : Counters := fun _ => 0

/-- Assignment `consecutiveHighTempCount[assetId] = v`. -/
def setCounter (cnt : Counters) (assetId v : Nat) : Counters :=
  fun a => if a = assetId then v else cnt a

/-- One call `assetManagerContract.reportFault(assetId, description)`. -/
structure ReportFaultCall where
  assetId : Nat
  description : String
  deriving DecidableEq, Repr

/-- Source: `checkThreshold(assetId, temperature)`.

`reportOk` is the answer of the ledger to the `reportFault` call, should this
invocation issue one: `true` when the awaited call resolves, `false` when it
throws.  The result is the new counter object and the ledger calls issued. -/
def checkThreshold (reportOk : Bool) (assetId : Nat) (temperature : JSNumber)
    (cnt : Counters) : Counters × List ReportFaultCall :=
  -- if (temperature > TEMP_THRESHOLD) count++ else count = 0
  let cnt1 : Counters :=
    if temperature.gt TEMP_THRESHOLD then setCounter cnt assetId (cnt assetId + 1)
    else setCounter cnt assetId 0
  -- if (count >= THRESHOLD_COUNT) { try { await reportFault(..); count = 0 } catch { log } }
  if THRESHOLD_COUNT ≤ cnt1 assetId then
    let call : ReportFaultCall :=
      ⟨assetId, "Predictive maintenance triggered (High temperature)"⟩
    if reportOk then (setCounter cnt1 assetId 0, [call])
    else (cnt1, [call])
  else (cnt1, [])

/-- A stream of readings for one asset: each reading comes with the answer the
ledger gives if `checkThreshold` issues a `reportFault` call on that reading.
The result is the final counter object and, reading by reading, the calls
issued. -/
def feedReadings (assetId : Nat) :
    List (JSNumber × Bool) → Counters → Counters × List (List ReportFaultCall)
  | [], cnt => (cnt, [])
  | (t, ok) :: rest, cnt =>
    let r := checkThreshold ok assetId t cnt
    let s := feedReadings assetId rest r.1
    (s.1, r.2 :: s.2)

/-- The length of the trailing run of readings strictly above the threshold. -/
def trailingRun (rs : List JSNumber) : Nat :=
  (rs.reverse.takeWhile (fun t => t.gt TEMP_THRESHOLD)).length

/-! ## The cost snapshot store (`server.js`) -/

/-- A row of the table `gas_costs` (primary key `assetId`).  The column
`costWei` is text holding the decimal digits of a wei amount, as written by the
fault report (`actualCostWei.toString()`); it is modelled by that amount. -/
structure GasCostRow where
  assetId : ℕ
  user : String
  costWei : ℕ
  polUsd : JSNumber
  ts : ℕ
  deriving DecidableEq

/-- The table `gas_costs`. -/
abbrev GasCostStore := List GasCostRow

/-- The answers of `DELETE /gasCosts`. -/
inductive DeleteResponse where
  | badRequest : DeleteResponse
  | notFound : DeleteResponse
  | success : DeleteResponse
  deriving DecidableEq

/-- Source: the handler `app.delete('/gasCosts', ...)`.  The query carries
`assetId`, `user` and `costWei`; an empty `user` is answered 400, otherwise the
rows matching all three fields are deleted and `info.changes` tells whether
there was one. -/
def deleteGasCosts (store : GasCostStore) (assetId : ℕ) (user : String) (costWei : ℕ) :
    GasCostStore × DeleteResponse :=
  if user = "" then (store, DeleteResponse.badRequest)
  else
    let kept := store.filter (fun r =>
      !(decide (r.assetId = assetId) && decide (r.user = user) && decide (r.costWei = costWei)))
    if store.length - kept.length = 0 then (store, DeleteResponse.notFound)
    else (kept, DeleteResponse.success)

/-! ## Settlement (`AdminActions.jsx`) -/

/-- An entry of the React state `dbGasMap`, loaded earlier from `GET /gasCosts`. -/
structure CostData where
  user : String
  costWei : ℕ
  polUsd : JSNumber
  deriving DecidableEq

/-- What `fetch("http://localhost:4000/polPrice")` followed by `r.json()` gives:
an exception, a body without a `price` (the 502 answer `{ error }`, or a null
price), or a body with a numeric `price`. -/
inductive PriceFetch where
  | threw : PriceFetch
  | noPrice : PriceFetch
  | price (q : JSNumber) : PriceFetch
  deriving DecidableEq

/-- The three alerts of `payTechnicianFor`. -/
inductive Alert where
  | enterAmount : Alert
  | paid : Alert
  | error : Alert
  deriving DecidableEq

/-- The outward effects of `payTechnicianFor`, in the order they are issued. -/
inductive Effect where
  | alert (a : Alert) : Effect
  | fetchPolPrice : Effect
  | confirmPayment (assetId : ℕ) (techAmountWei : ℤ) (userAddr : String)
      (userCostWei : ℤ) : Effect
  | deleteGasCosts (assetId : ℕ) (user : String) (costWei : ℕ) : Effect
  deriving DecidableEq

/-- Everything `payTechnicianFor` reads from outside: the React states
`payInput` and `dbGasMap`, `ethers.utils.parseEther` on the typed amount
(`none` when it throws), the outcome of the price fetch, whether the ledger call
`confirmPayment(...)` together with `tx.wait()` succeeds, and whether the DELETE
request reaches the server. -/
structure SettlementEnv where
  payInput : ℕ → Option String
  parseEther : String → Option ℤ
  dbGasMap : ℕ → Option CostData
  polPrice : PriceFetch
  confirmPayment : ℕ → ℤ → String → ℤ → Bool
  deleteReaches : Bool

/-- Source: `ethers.constants.AddressZero`. -/
def AddressZero : String := "0x0000000000000000000000000000000000000000"

/-- Source: `Number(ethers.utils.formatEther(costData.costWei))`: the decimal
string of `costWei / 10 ^ 18`, converted to the nearest double. -/
def gasCostPOL (costWei : ℕ) : JSNumber := JSNumber.round false (costWei / 10 ^ 18)

/-- Source: `const fiatSpentUsd = gasCostPOL * snapshotPolUsd;`. -/
def fiatSpentUsd (cd : CostData) : JSNumber := (gasCostPOL cd.costWei).mul cd.polUsd

/-- Source: `let currentPolUsd = snapshotPolUsd; try { ...; if (j.price)
currentPolUsd = Number(j.price); } catch (err) { ... }`. -/
def currentPolUsd (cd : CostData) : PriceFetch → JSNumber
  | PriceFetch.threw => cd.polUsd
  | PriceFetch.noPrice => cd.polUsd
  | PriceFetch.price q => if q.truthy then q else cd.polUsd

/-- Source: `const reimbPolNow = fiatSpentUsd / currentPolUsd;`. -/
def reimbPolNow (cd : CostData) (pf : PriceFetch) : JSNumber :=
  (fiatSpentUsd cd).div (currentPolUsd cd pf)

/-- Source: `ethers.utils.parseEther` on a string returned by `toFixed(18)`: the
wei amount it spells, or `none` (an exception) when it is not a decimal string. -/
def parseEtherFixed : JSNumber.Fixed18 → Option ℤ
  | JSNumber.Fixed18.decimal neg n => some (if neg then -(n : ℤ) else n)
  | JSNumber.Fixed18.notDecimal => none

/-- Source: `userCostWei = ethers.utils.parseEther(reimbPolNow.toFixed(18));`. -/
def userCostWei (cd : CostData) (pf : PriceFetch) : Option ℤ :=
  parseEtherFixed (reimbPolNow cd pf).toFixed18

/-- Source: steps 3 and 4 of `payTechnicianFor`: the ledger call, the alert,
and the DELETE of the snapshot when there was one. -/
def settleOnChain (env : SettlementEnv) (assetId : ℕ) (store : GasCostStore)
    (techAmountWei : ℤ) (userAddr : String) (userCost : ℤ) (costData : Option CostData) :
    List Effect × GasCostStore :=
  let call := Effect.confirmPayment assetId techAmountWei userAddr userCost
  if env.confirmPayment assetId techAmountWei userAddr userCost then
    match costData with
    | none => ([call, Effect.alert Alert.paid], store)
    | some cd =>
      let del := Effect.deleteGasCosts assetId userAddr cd.costWei
      if env.deleteReaches then
        ([call, Effect.alert Alert.paid, del],
          (deleteGasCosts store assetId userAddr cd.costWei).1)
      else ([call, Effect.alert Alert.paid, del, Effect.alert Alert.error], store)
  else ([call, Effect.alert Alert.error], store)

/-- Source: `payTechnicianFor(assetId)`.  The result is the list of effects
issued, in order, and the cost snapshot store afterwards.  The refresh of the
user interface (step 5) only reads and is left out. -/
def payTechnicianFor (env : SettlementEnv) (assetId : ℕ) (store : GasCostStore) :
    List Effect × GasCostStore :=
  match env.payInput assetId with
  | none => ([Effect.alert Alert.enterAmount], store)
  | some payStr =>
    if payStr = "" then ([Effect.alert Alert.enterAmount], store)
    else
      match env.parseEther payStr with
      | none => ([Effect.alert Alert.error], store)
      | some techAmountWei =>
        match env.dbGasMap assetId with
        | none => settleOnChain env assetId store techAmountWei AddressZero 0 none
        | some cd =>
          match userCostWei cd env.polPrice with
          | none => ([Effect.fetchPolPrice, Effect.alert Alert.error], store)
          | some w =>
            let r := settleOnChain env assetId store techAmountWei cd.user w (some cd)
            (Effect.fetchPolPrice :: r.1, r.2)

/-- An account address used in worked examples. -/
def exampleUser : String := "0x1111111111111111111111111111111111111111"

/-- An environment for worked examples: the admin typed "1" (one token, that is
`10 ^ 18` wei, for the technician), `dbGasMap` holds `cd` for every asset, the
price fetch gives `pf`, the ledger answers `ledgerOk` and the DELETE request
reaches the server. -/
def exampleEnv (cd : Option CostData) (pf : PriceFetch) (ledgerOk : Bool) : SettlementEnv where
  payInput := fun _ => some "1"
  parseEther := fun _ => some (10 ^ 18)
  dbGasMap := fun _ => cd
  polPrice := pf
  confirmPayment := fun _ _ _ _ => ledgerOk
  deleteReaches := true

/-! ## Writing cost snapshots (`server.js`) -/

/-- The JSON body of `POST /gasCosts` as the handler reads it: `assetId` is
`none` when the field is undefined, `user` is empty and `costWei` is `none` when
they are missing or empty (falsy), `polUsd` is `none` when the client did not
supply a price. -/
structure PostBody where
  assetId : Option ℕ
  user : String
  costWei : Option ℕ
  polUsd : Option JSNumber

/-- The answers of `POST /gasCosts`. -/
inductive PostResponse where
  | badRequest : PostResponse
  | success : PostResponse
  deriving DecidableEq

/-- Source: `if (polUsd === undefined) { try { polUsd = await fetchPolUsd(); }
catch (err) { polUsd = -1; } }`: the price stored with the snapshot.  `fetched`
is the result of `fetchPolUsd()`, `none` when it throws. -/
def priceToStore (fetched : Option JSNumber) (polUsd : Option JSNumber) : JSNumber :=
  match polUsd with
  | some p => p
  | none =>
    match fetched with
    | some p => p
    | none => JSNumber.fin true 1

/-- Source: the handler `app.post('/gasCosts', ...)`.  `ts` is
`Math.floor(Date.now() / 1000)`.  `INSERT OR REPLACE` on the primary key
`assetId` removes the row holding that key, if any, and inserts the new row. -/
def postGasCosts (fetched : Option JSNumber) (ts : ℕ) (store : GasCostStore)
    (body : PostBody) : GasCostStore × PostResponse :=
  match body.assetId, body.costWei with
  | some assetId, some costWei =>
    if body.user = "" then (store, PostResponse.badRequest)
    else
      (store.filter (fun r => !decide (r.assetId = assetId)) ++
          [⟨assetId, body.user, costWei, priceToStore fetched body.polUsd, ts⟩],
        PostResponse.success)
  | _, _ => (store, PostResponse.badRequest)

/-- A request to the cost snapshot routes of the server. -/
inductive GasRequest where
  | post (fetched : Option JSNumber) (ts : ℕ) (body : PostBody) : GasRequest
  | delete (assetId : ℕ) (user : String) (costWei : ℕ) : GasRequest

/-- The store after one request. -/
def serveRequest (store : GasCostStore) : GasRequest → GasCostStore
  | GasRequest.post fetched ts body => (postGasCosts fetched ts store body).1
  | GasRequest.delete assetId user costWei => (deleteGasCosts store assetId user costWei).1

/-- The store after a sequence of requests, served in order. -/
def serveRequests (store : GasCostStore) (reqs : List GasRequest) : GasCostStore :=
  reqs.foldl serveRequest store

/-! ## Readings and integrity hashes (`predictiveMaintenanceService.js`) -/

/-- Source: `const ASSET_IDS = [0, 1, 2];`. -/
def ASSET_IDS : List ℕ := [0, 1, 2]

/-- A row of the table `sensor_readings`; the rows of the table are kept in the
order of their autoincremented `id`, that is in insertion order. -/
structure SensorReading where
  assetId : ℕ
  timestamp : String
  temperature : JSNumber
  vibration : JSNumber
  deriving DecidableEq

/-- The table `sensor_readings`. -/
abbrev ReadingLog := List SensorReading

/-- A row as selected by `getLastNReadings`: the columns `temperature`,
`vibration`, `timestamp`, in that order. -/
structure ReadingRow where
  temperature : JSNumber
  vibration : JSNumber
  timestamp : String
  deriving DecidableEq

/-- The columns selected from a stored reading. -/
def SensorReading.row (r : SensorReading) : ReadingRow :=
  ⟨r.temperature, r.vibration, r.timestamp⟩

/-- Source: `getLastNReadings(assetId, n)`: `SELECT temperature, vibration,
timestamp FROM sensor_readings WHERE asset_id = ? ORDER BY id DESC LIMIT ?`, then
`rows.reverse()`. -/
def getLastNReadings (log : ReadingLog) (assetId n : ℕ) : List ReadingRow :=
  ((((log.filter (fun r => decide (r.assetId = assetId))).reverse).take n).map
    SensorReading.row).reverse

/-- Source: `storeReading(assetId, temperature, vibration)` when the insert
succeeds; `now` is `new Date().toISOString()`. -/
def storeReading (log : ReadingLog) (assetId : ℕ) (now : String)
    (temperature vibration : JSNumber) : ReadingLog :=
  log ++ [⟨assetId, now, temperature, vibration⟩]

/-- What a `storeHashes` cycle reads from outside: whether the database read
of an asset succeeds, whether the ledger call `storePredictiveHash` resolves,
and the library functions it relies on (the JSON text of a number and of a
string, and the hexadecimal SHA-256 digest of a text). -/
structure HashEnv where
  dbReadOk : ℕ → Bool
  storeHashOk : ℕ → String → Bool
  numberToJson : JSNumber → String
  stringToJson : String → String
  sha256Hex : String → String

/-- What a `storeHashes` cycle does for an asset, in order: the log line for too
few readings, the computed digest (logged), the ledger call, the logged error. -/
inductive HashEvent where
  | notEnough (assetId : ℕ) : HashEvent
  | digest (assetId : ℕ) (hashHex : String) : HashEvent
  | storePredictiveHash (assetId : ℕ) (hashHex : String) : HashEvent
  | error (assetId : ℕ) : HashEvent
  deriving DecidableEq

/-- The asset an event is about. -/
def HashEvent.assetId : HashEvent → ℕ
  | HashEvent.notEnough a => a
  | HashEvent.digest a _ => a
  | HashEvent.storePredictiveHash a _ => a
  | HashEvent.error a => a

/-- Source: `JSON.stringify` on one selected row: an object with the keys
`temperature`, `vibration`, `timestamp` in the order of the SELECT. -/
def rowToJson (env : HashEnv) (r : ReadingRow) : String :=
  "\x7b\"temperature\":" ++ env.numberToJson r.temperature ++
    ",\"vibration\":" ++ env.numberToJson r.vibration ++
    ",\"timestamp\":" ++ env.stringToJson r.timestamp ++ "\x7d"

/-- Source: `JSON.stringify(r)` on the array of selected rows. -/
def rowsToJson (env : HashEnv) (rows : List ReadingRow) : String :=
  "[" ++ ",".intercalate (rows.map (rowToJson env)) ++ "]"

/-- Source: the body of the loop of `storeHashes` for one asset. -/
def storeHashesFor (env : HashEnv) (log : ReadingLog) (assetId : ℕ) : List HashEvent :=
  if env.dbReadOk assetId then
    let r := getLastNReadings log assetId 3
    if r.length < 3 then [HashEvent.notEnough assetId]
    else
      let hashHex := env.sha256Hex (rowsToJson env r)
      if env.storeHashOk assetId hashHex then
        [HashEvent.digest assetId hashHex, HashEvent.storePredictiveHash assetId hashHex]
      else
        [HashEvent.digest assetId hashHex, HashEvent.storePredictiveHash assetId hashHex,
          HashEvent.error assetId]
  else [HashEvent.error assetId]

/-- Source: `storeHashes()`: one pass over `ASSET_IDS`. -/
def storeHashes (env : HashEnv) (log : ReadingLog) : List HashEvent :=
  ASSET_IDS.flatMap (storeHashesFor env log)

/-- An environment for worked examples: every database read and ledger call
succeeds; the library functions are placeholders, the statements proved below
hold for every choice of them. -/
def exampleHashEnv : HashEnv where
  dbReadOk := fun _ => true
  storeHashOk := fun _ _ => true
  numberToJson := fun _ => "0"
  stringToJson := fun s => s
  sha256Hex := fun s => s

/-- Readings used in worked examples: four readings of asset 0 and one of
asset 1, in insertion order. -/
def exampleLog : ReadingLog :=
  [⟨0, "t1", JSNumber.ofRat 61, JSNumber.ofRat 2⟩,
    ⟨0, "t2", JSNumber.ofRat 62, JSNumber.ofRat 3⟩,
    ⟨1, "t2", JSNumber.ofRat 50, JSNumber.ofRat 1⟩,
    ⟨0, "t3", JSNumber.ofRat 63, JSNumber.ofRat 4⟩,
    ⟨0, "t4", JSNumber.ofRat 64, JSNumber.ofRat 5⟩]

/-- What `simulateReadings` meets for one asset in a cycle: the status returned
by `getAssetStatus` (`none` when the call rejects), the generated sensor data,
the timestamp, whether the insert of the reading succeeds and the answer of the
ledger to a `reportFault` call. -/
structure AssetTick where
  status : Option String
  temperature : JSNumber
  vibration : JSNumber
  now : String
  storeOk : Bool
  reportOk : Bool

/-- The state of the service: the readings table and the counters. -/
structure ServiceState where
  log : ReadingLog
  counters : Counters

/-- Source: the loop of `simulateReadings` over a list of asset ids.  The
function has no `try`: a rejected `getAssetStatus` or `storeReading` rejects the
whole call and the remaining assets are not visited.  The result is the state
afterwards and the `reportFault` calls issued. -/
def simulateAssets (ticks : ℕ → AssetTick) :
    List ℕ → ServiceState → ServiceState × List ReportFaultCall
  | [], st => (st, [])
  | assetId :: rest, st =>
    match (ticks assetId).status with
    | none => (st, [])
    | some status =>
      if status ≠ "Operational" then simulateAssets ticks rest st
      else if (ticks assetId).storeOk then
        let log1 := storeReading st.log assetId (ticks assetId).now
          (ticks assetId).temperature (ticks assetId).vibration
        let r := checkThreshold (ticks assetId).reportOk assetId (ticks assetId).temperature
          st.counters
        let s := simulateAssets ticks rest ⟨log1, r.1⟩
        (s.1, r.2 ++ s.2)
      else (st, [])

/-- Source: `simulateReadings()`: one cycle over `ASSET_IDS`. -/
def simulateReadings (ticks : ℕ → AssetTick) (st : ServiceState) :
    ServiceState × List ReportFaultCall :=
  simulateAssets ticks ASSET_IDS st

/-- A cycle used in worked examples: asset 1 is reported Broken by the ledger,
every other asset is Operational and reads 75 degrees; every insert and every
ledger call succeeds. -/
def exampleTicks : ℕ → AssetTick := fun a =>
  if a = 1 then ⟨some "Broken", JSNumber.ofRat 75, JSNumber.ofRat 2, "t1", true, true⟩
  else ⟨some "Operational", JSNumber.ofRat 75, JSNumber.ofRat 2, "t1", true, true⟩

/-! ## The ban check and the Report Fault action (`FloatingAssetPanel.jsx`) -/

/-- What the ban check reads from the ledger: an exception (from
`signer.getAddress()` or `contract.counterMiss(addr)`), or the counter. -/
inductive BanRead where
  | threw : BanRead
  | count (n : ℕ) : BanRead
  deriving DecidableEq

/-- Source: `count.toNumber()` of the ethers library: the number itself when
it fits in 53 bits, an exception (`none`) otherwise. -/
def toNumber (n : ℕ) : Option ℕ := if n < 2 ^ 53 then some n else none

/-- The React states `isBanned` and `banChecked`. -/
structure BanState where
  isBanned : Bool
  banChecked : Bool
  deriving DecidableEq

/-- Source: `useState(false)` for both states. -/
def initialBanState : BanState := ⟨false, false⟩

/-- Source: the effect `check ban status`: the states once it has run. -/
def banStatusEffect (userRole : String) (read : BanRead) : BanState :=
  if userRole ≠ "User" then ⟨false, true⟩
  else
    match read with
    | BanRead.threw => ⟨false, true⟩
    | BanRead.count n =>
      match toNumber n with
      | some k => ⟨decide (3 ≤ k), true⟩
      | none => ⟨false, true⟩

/-- Source: the condition under which the panel renders the Report Fault form:
`userRole === "User" && asset.status === "Operational" && banChecked &&
!isBanned`. -/
def offersReportFault (userRole status : String) (st : BanState) : Bool :=
  decide (userRole = "User") && decide (status = "Operational") && st.banChecked &&
    !st.isBanned

/-! ## The actions of the panel (`FloatingAssetPanel.jsx`) -/

/-- The actions the panel can offer in its Actions accordion. -/
inductive PanelAction where
  | reportFault : PanelAction
  | cancelFault : PanelAction
  | startMaintenance : PanelAction
  | replaceItem : PanelAction
  | completeMaintenance : PanelAction
  deriving DecidableEq

/-- Source: the Actions accordion of the panel, for a panel that shows an asset:
each block is rendered under its own condition on `userRole` and
`asset.status`. -/
def panelActions (userRole status : String) (st : BanState) : List PanelAction :=
  (if offersReportFault userRole status st then [PanelAction.reportFault] else []) ++
  (if userRole = "Admin" ∧ status = "Broken" then [PanelAction.cancelFault] else []) ++
  (if userRole = "Technician" ∧ status = "Broken" then [PanelAction.startMaintenance]
    else []) ++
  (if userRole = "Technician" ∧ status = "Under Maintenance" then
    [PanelAction.replaceItem, PanelAction.completeMaintenance] else [])

/-- The lifecycle guard as the specification words it: a fault is reported by a
User on an Operational asset, cancelled by an Admin on a Broken asset, work is
started by a Technician on a Broken asset, and an item is replaced or the work
completed by a Technician on an asset Under Maintenance. -/
def lifecycleGuard (userRole status : String) : PanelAction → Bool
  | PanelAction.reportFault => decide (userRole = "User") && decide (status = "Operational")
  | PanelAction.cancelFault => decide (userRole = "Admin") && decide (status = "Broken")
  | PanelAction.startMaintenance =>
    decide (userRole = "Technician") && decide (status = "Broken")
  | PanelAction.replaceItem =>
    decide (userRole = "Technician") && decide (status = "Under Maintenance")
  | PanelAction.completeMaintenance =>
    decide (userRole = "Technician") && decide (status = "Under Maintenance")

/-- What `handleCancelFault` meets: whether the ledger call `cancelFault(...)`
with `tx.wait()` succeeds, whether `GET /gasCosts` answers, and whether the
DELETE request reaches the server. -/
structure CancelEnv where
  cancelOk : Bool
  listReaches : Bool
  deleteReaches : Bool

/-- The outward effects of `handleCancelFault`, in the order they are issued. -/
inductive CancelEffect where
  | cancelFault (assetId : ℕ) (reason : String) : CancelEffect
  | listGasCosts : CancelEffect
  | deleteGasCosts (assetId : ℕ) (user : String) (costWei : ℕ) : CancelEffect
  | alertCanceled : CancelEffect
  | alertError : CancelEffect
  deriving DecidableEq

/-- Source: `handleCancelFault()` for the asset `asset.id` with the reason typed
by the admin.  `GET /gasCosts` returns every row of the store and
`data.find(...)` takes the first one whose `assetId` is that of the asset; the
user of a row is an account address, which the query string carries unchanged.
The result is the effects issued and the cost snapshot store afterwards. -/
def handleCancelFault (env : CancelEnv) (assetId : ℕ) (cancelReason : String)
    (store : GasCostStore) : List CancelEffect × GasCostStore :=
  let call := CancelEffect.cancelFault assetId cancelReason
  if env.cancelOk then
    if env.listReaches then
      match store.find? (fun r => decide (r.assetId = assetId)) with
      | some row =>
        let del := CancelEffect.deleteGasCosts row.assetId row.user row.costWei
        if env.deleteReaches then
          ([call, CancelEffect.listGasCosts, del, CancelEffect.alertCanceled],
            (deleteGasCosts store row.assetId row.user row.costWei).1)
        else ([call, CancelEffect.listGasCosts, del, CancelEffect.alertError], store)
      | none => ([call, CancelEffect.listGasCosts, CancelEffect.alertCanceled], store)
    else ([call, CancelEffect.listGasCosts, CancelEffect.alertError], store)
  else ([call, CancelEffect.alertError], store)

/-! ## Pending and paid maintenance (`AdminActions.jsx`) -/

/-- A completed-maintenance record as `getCompletedMaintenance(assetId, index)`
returns it (the fields the two loaders read). -/
structure CompletedMaintenance where
  technician : String
  readyForPayment : Bool
  isPaid : Bool
  paymentTimestamp : ℕ
  paidAmountWei : ℕ
  userReimbursed : String
  userReimbursedAmountWei : ℕ
  deriving DecidableEq

/-- The ledger as the loaders read it: the list of completed-maintenance
records of each asset, for the asset ids `0, 1, ...` below `nextAssetId()`. -/
abbrev MaintenanceLedger := List (List CompletedMaintenance)

/-- An entry of the React state `pendingPayments`. -/
structure PendingEntry where
  assetId : ℕ
  technician : String
  deriving DecidableEq

/-- An entry of the React state `paidTasks`; the two amounts are also kept as
text formatted by `formatEther`, left out here. -/
structure PaidEntry where
  assetId : ℕ
  technician : String
  paymentTimestamp : ℕ
  paidAmountWei : ℕ
  userReimbursed : String
  userReimbursedAmountWei : ℕ
  deriving DecidableEq

/-- Source: the test of `loadPendingPayments`: `cm.readyForPayment &&
!cm.isPaid`. -/
def CompletedMaintenance.isPending (cm : CompletedMaintenance) : Bool :=
  cm.readyForPayment && !cm.isPaid

/-- Source: the loops of `loadPendingPayments`, from the asset id `assetId` on,
when every ledger read succeeds. -/
def pendingFrom (assetId : ℕ) : MaintenanceLedger → List PendingEntry
  | [] => []
  | records :: rest =>
    ((records.filter CompletedMaintenance.isPending).map
      (fun cm => (⟨assetId, cm.technician⟩ : PendingEntry))) ++ pendingFrom (assetId + 1) rest

/-- Source: `loadPendingPayments()`: the list given to `setPendingPayments`. -/
def loadPendingPayments (ledger : MaintenanceLedger) : List PendingEntry :=
  pendingFrom 0 ledger

/-- Source: the inner loop of `loadPaidPayments` for one asset;
`cm.paymentTimestamp.toNumber()` throws on a timestamp that does not fit in 53
bits, and then the whole load fails (`none`). -/
def paidEntries (assetId : ℕ) : List CompletedMaintenance → Option (List PaidEntry)
  | [] => some []
  | cm :: rest =>
    if cm.isPaid then
      match toNumber cm.paymentTimestamp, paidEntries assetId rest with
      | some ts, some l =>
        some (⟨assetId, cm.technician, ts, cm.paidAmountWei, cm.userReimbursed,
          cm.userReimbursedAmountWei⟩ :: l)
      | _, _ => none
    else paidEntries assetId rest

/-- Source: the loops of `loadPaidPayments`, from the asset id `assetId` on. -/
def paidFrom (assetId : ℕ) : MaintenanceLedger → Option (List PaidEntry)
  | [] => some []
  | records :: rest =>
    match paidEntries assetId records, paidFrom (assetId + 1) rest with
    | some l1, some l2 => some (l1 ++ l2)
    | _, _ => none

/-- Source: `loadPaidPayments()`: the list given to `setPaidTasks`, `none` when
the load fails and the state is left as it was. -/
def loadPaidPayments (ledger : MaintenanceLedger) : Option (List PaidEntry) :=
  paidFrom 0 ledger

/-- All the records of the ledger, each with its asset id, in the order the
loaders visit them. -/
def recordsFrom (assetId : ℕ) : MaintenanceLedger → List (ℕ × CompletedMaintenance)
  | [] => []
  | records :: rest => records.map (fun cm => (assetId, cm)) ++ recordsFrom (assetId + 1) rest

/-! ## The timers (`predictiveMaintenanceService.js`) -/

/-- The two periodic jobs of the service. -/
inductive Job where
  | simulateReadings : Job
  | storeHashes : Job
  deriving DecidableEq

/-- A call `setInterval(job, periodMs)`. -/
structure Timer where
  job : Job
  periodMs : ℕ
  deriving DecidableEq

/-- Source: `start()`: `setInterval(simulateReadings, 20 * 1000)` and
`setInterval(storeHashes, 5 * 60 * 1000)`. -/
def start : List Timer :=
  [⟨Job.simulateReadings, 20 * 1000⟩, ⟨Job.storeHashes, 5 * 60 * 1000⟩]

/-- An environment for worked examples in which the database read of asset 0
fails and every other read and ledger call succeeds. -/
def failingHashEnv : HashEnv where
  dbReadOk := fun a => decide (a ≠ 0)
  storeHashOk := fun _ _ => true
  numberToJson := fun _ => "0"
  stringToJson := fun s => s
  sha256Hex := fun s => s

/-- A cycle used in worked examples: the status of asset 0 cannot be fetched
(`getAssetStatus` rejects), every other asset is Operational and reads 75
degrees. -/
def failingTicks : ℕ → AssetTick := fun a =>
  if a = 0 then ⟨none, JSNumber.ofRat 75, JSNumber.ofRat 2, "t1", true, true⟩
  else ⟨some "Operational", JSNumber.ofRat 75, JSNumber.ofRat 2, "t1", true, true⟩

/-! ## The cached cost snapshots of the admin page (`AdminActions.jsx`) -/

/-- Source: `loadGasCostsFromServer()`: `GET /gasCosts`, then for each row in
turn `map[row.assetId] = { user: row.user, costWei: row.costWei, polUsd:
row.polUsd }`, then `setDbGasMap(map)`.  `rows` is `none` when the request
fails: the catch leaves `dbGasMap` at its initial value, the empty object. -/
def loadGasCostsFromServer (rows : Option GasCostStore) : ℕ → Option CostData :=
  match rows with
  | none => fun _ => none
  | some rs =>
    rs.foldl (fun m row a =>
      if a = row.assetId then some ⟨row.user, row.costWei, row.polUsd⟩ else m a)
      (fun _ => none)

/-- Source: the effect `useEffect(() => { if (role === "Admin") { ...;
loadGasCostsFromServer(); } }, [role])`, the only caller of
`loadGasCostsFromServer`: the page once mounted reads `dbGasMap` as loaded from
the rows the server held at that moment. -/
def mountAdmin (env : SettlementEnv) (rows : Option GasCostStore) : SettlementEnv :=
  ⟨env.payInput, env.parseEther, loadGasCostsFromServer rows, env.polPrice,
    env.confirmPayment, env.deleteReaches⟩

/-- Settlements requested one after the other on a mounted page.  Step 5 of
`payTechnicianFor` refreshes the balance, the pending list and the paid list,
not `dbGasMap`: every settlement reads the same `dbGasMap`, while the store is
the one the previous settlement left. -/
def settleAll (env : SettlementEnv) : List ℕ → GasCostStore → List (List Effect) × GasCostStore
  | [], store => ([], store)
  | a :: rest, store =>
    let r := payTechnicianFor env a store
    let rs := settleAll env rest r.2
    (r.1 :: rs.1, rs.2)

/-- One session of the admin page: mounted over the store `store`, then the
settlements of `assetIds` in turn. -/
def adminSession (env : SettlementEnv) (store : GasCostStore) (assetIds : List ℕ) :
    List (List Effect) × GasCostStore :=
  settleAll (mountAdmin env (some store)) assetIds store

/-! ## The ban states over the renders of the panel (`FloatingAssetPanel.jsx`) -/

/-- The mounted panel between two renders: the states `isBanned` and
`banChecked`, and the value of the prop `userRole` at the last render, which is
what the dependency list `[userRole]` of the ban check effect is compared with
(`none` before the first render). -/
structure PanelState where
  ban : BanState
  lastRole : Option String
  deriving DecidableEq

/-- The panel when it is mounted: both states `false`, no render yet. -/
def mountedPanel : PanelState := ⟨initialBanState, none⟩

/-- Source: one render of the panel with the prop `userRole`, followed by the
effect `useEffect(() => { ... }, [userRole])`.  The render reads the states as
they are; the effect runs after the first render and after a render whose
`userRole` differs from the one of the render before, and is skipped otherwise;
nothing else writes the two states.  `read` is what the ledger answers for the
account connected at that moment.  The result is whether this render shows the
Report Fault form, and the panel once the effect, if it ran, has settled. -/
def renderPanel (userRole status : String) (read : BanRead) (p : PanelState) :
    Bool × PanelState :=
  (offersReportFault userRole status p.ban,
    ⟨if p.lastRole = some userRole then p.ban else banStatusEffect userRole read,
      some userRole⟩)

/-! ## Facts about the anomaly detector -/

theorem TEMP_THRESHOLD_eq : TEMP_THRESHOLD = JSNumber.fin false 70 := by
  have h70 : ¬ ((70 : ℚ) < 0) := by norm_num
  have h : |(70 : ℚ)| = 70 := abs_of_nonneg (by norm_num)
  simp [TEMP_THRESHOLD, JSNumber.ofRat, h70, h]

theorem JSNumber.ofRat_gt_threshold (q : ℚ) :
    (JSNumber.ofRat q).gt TEMP_THRESHOLD = decide (70 < q) := by
  rw [TEMP_THRESHOLD_eq]
  by_cases hq : q < 0
  · have h1 : ¬ (70 < q) := by linarith
    have h2 : ¬ (70 < -|q|) := by
      have := abs_nonneg q
      linarith
    simpa [JSNumber.ofRat, JSNumber.gt, JSNumber.signed, hq, h1] using le_of_not_lt h2
  · have h1 : |q| = q := abs_of_nonneg (not_lt.mp hq)
    simp [JSNumber.ofRat, JSNumber.gt, JSNumber.signed, hq, h1]

/-- The counter of the asset after one call, by cases. -/
theorem checkThreshold_counter (ok : Bool) (a : Nat) (t : JSNumber) (cnt : Counters) :
    (checkThreshold ok a t cnt).1 a =
      if t.gt TEMP_THRESHOLD then
        (if 3 ≤ cnt a + 1 then (if ok then 0 else cnt a + 1) else cnt a + 1)
      else 0 := by
  unfold checkThreshold
  by_cases hg : t.gt TEMP_THRESHOLD = true
  · by_cases h3 : 3 ≤ cnt a + 1
    · cases ok <;> simp [hg, h3, setCounter, THRESHOLD_COUNT]
    · simp [hg, h3, setCounter, THRESHOLD_COUNT]
  · simp [hg, setCounter, THRESHOLD_COUNT]

/-- The ledger calls issued by one call, by cases. -/
theorem checkThreshold_calls (ok : Bool) (a : Nat) (t : JSNumber) (cnt : Counters) :
    (checkThreshold ok a t cnt).2 =
      if t.gt TEMP_THRESHOLD = true ∧ 3 ≤ cnt a + 1 then
        [⟨a, "Predictive maintenance triggered (High temperature)"⟩]
      else [] := by
  unfold checkThreshold
  by_cases hg : t.gt TEMP_THRESHOLD = true
  · by_cases h3 : 3 ≤ cnt a + 1
    · cases ok <;> simp [hg, h3, setCounter, THRESHOLD_COUNT]
    · simp [hg, h3, setCounter, THRESHOLD_COUNT]
  · simp [hg, setCounter, THRESHOLD_COUNT]

theorem feedReadings_append (a : Nat) (xs ys : List (JSNumber × Bool)) (cnt : Counters) :
    feedReadings a (xs ++ ys) cnt =
      ((feedReadings a ys (feedReadings a xs cnt).1).1,
        (feedReadings a xs cnt).2 ++ (feedReadings a ys (feedReadings a xs cnt).1).2) := by
  induction xs generalizing cnt with
  | nil => simp [feedReadings]
  | cons x xs ih =>
    obtain ⟨t, ok⟩ := x
    simp [feedReadings, ih]

theorem feedReadings_snoc_counter (a : Nat) (xs : List (JSNumber × Bool)) (t : JSNumber)
    (ok : Bool) (cnt : Counters) :
    (feedReadings a (xs ++ [(t, ok)]) cnt).1 a =
      (checkThreshold ok a t (feedReadings a xs cnt).1).1 a := by
  rw [feedReadings_append]
  simp [feedReadings]

theorem trailingRun_snoc (rs : List JSNumber) (t : JSNumber) :
    trailingRun (rs ++ [t]) = if t.gt TEMP_THRESHOLD then trailingRun rs + 1 else 0 := by
  unfold trailingRun
  by_cases hg : t.gt TEMP_THRESHOLD = true
  · simp [List.takeWhile, hg]
  · simp [List.takeWhile, hg]

theorem checkThreshold_ofRat_high (ok : Bool) (a : Nat) (q : ℚ) (hq : 70 < q) (cnt : Counters) :
    checkThreshold ok a (JSNumber.ofRat q) cnt =
      if 3 ≤ cnt a + 1 then
        (if ok then setCounter (setCounter cnt a (cnt a + 1)) a 0
          else setCounter cnt a (cnt a + 1),
          [⟨a, "Predictive maintenance triggered (High temperature)"⟩])
      else (setCounter cnt a (cnt a + 1), []) := by
  unfold checkThreshold
  rw [JSNumber.ofRat_gt_threshold]
  by_cases h3 : 3 ≤ cnt a + 1
  · cases ok <;> simp [hq, h3, setCounter, THRESHOLD_COUNT]
  · simp [hq, h3, setCounter, THRESHOLD_COUNT]

/-! ## Claims about the anomaly detector -/

/-- C1 (as stated, refuted): after the readings 75, 80, 78 with a ledger that
accepts the report the counter of the asset is 0, while the trailing run of
readings above 70 has length 3. -/
theorem counter_differs_from_trailing_run :
    (feedReadings 0 [(JSNumber.ofRat 75, true), (JSNumber.ofRat 80, true),
        (JSNumber.ofRat 78, true)] initialCounters).1 0 = 0 ∧
      trailingRun [JSNumber.ofRat 75, JSNumber.ofRat 80, JSNumber.ofRat 78] = 3 := by
  constructor
  · simp [feedReadings, checkThreshold_counter, JSNumber.ofRat_gt_threshold, initialCounters]
    norm_num
  · simp [trailingRun, List.takeWhile, JSNumber.ofRat_gt_threshold]
    norm_num

/-- C1 (amended): for every finite sequence of readings of one asset, each with
the answer the ledger would give to a report, starting from the initial counters:
the counter after the last reading is 0 when that reading is not above 70; it
never exceeds the length of the trailing run of readings above 70; it equals that
length as long as the run is shorter than THRESHOLD_COUNT; it equals that length
modulo 3 when the ledger accepts every report, and that length itself when the
ledger rejects every report. -/
theorem counter_tracks_trailing_run (a : Nat) (rs : List (JSNumber × Bool)) :
    (∀ r, rs.getLast? = some r → r.1.gt TEMP_THRESHOLD = false →
        (feedReadings a rs initialCounters).1 a = 0) ∧
    (feedReadings a rs initialCounters).1 a ≤ trailingRun (rs.map Prod.fst) ∧
    (trailingRun (rs.map Prod.fst) < THRESHOLD_COUNT →
        (feedReadings a rs initialCounters).1 a = trailingRun (rs.map Prod.fst)) ∧
    ((∀ r ∈ rs, r.2 = true) →
        (feedReadings a rs initialCounters).1 a = trailingRun (rs.map Prod.fst) % 3) ∧
    ((∀ r ∈ rs, r.2 = false) →
        (feedReadings a rs initialCounters).1 a = trailingRun (rs.map Prod.fst)) := by
  induction rs using List.reverseRecOn with
  | nil => simp [feedReadings, initialCounters, trailingRun]
  | append_singleton xs x ih =>
    obtain ⟨t, ok⟩ := x
    obtain ⟨-, hle, hlt, hacc, hrej⟩ := ih
    simp only [List.map_append, List.map_cons, List.map_nil, trailingRun_snoc,
      feedReadings_snoc_counter, checkThreshold_counter, THRESHOLD_COUNT] at *
    refine ⟨?_, ?_, ?_, ?_, ?_⟩
    · intro r hr hg
      rw [List.getLast?_append, List.getLast?_singleton] at hr
      simp only [Option.or, Option.some.injEq] at hr
      subst hr
      simp only at hg
      simp [hg]
    · by_cases hg : t.gt TEMP_THRESHOLD = true
      · simp only [hg, if_true]
        split_ifs <;> omega
      · simp [hg]
    · by_cases hg : t.gt TEMP_THRESHOLD = true
      · simp only [hg, if_true]
        intro h
        have := hlt (by omega)
        split_ifs <;> omega
      · simp [hg]
    · intro hall
      have hok : ok = true := hall (t, ok) (by simp)
      have h := hacc (fun r hr => hall r (by simp [hr]))
      subst hok
      by_cases hg : t.gt TEMP_THRESHOLD = true
      · simp only [hg, if_true]
        split_ifs <;> omega
      · simp [hg]
    · intro hall
      have hok : ok = false := hall (t, ok) (by simp)
      have h := hrej (fun r hr => hall r (by simp [hr]))
      subst hok
      by_cases hg : t.gt TEMP_THRESHOLD = true
      · simp [hg, h]
      · simp [hg]

/-- Witness for C1 (amended): the readings 75, 80 with an accepting ledger leave
the counter at 2, the length of the trailing run. -/
theorem counter_tracks_trailing_run_witness :
    trailingRun ([(JSNumber.ofRat 75, true), (JSNumber.ofRat 80, true)].map Prod.fst)
        < THRESHOLD_COUNT ∧
      (feedReadings 0 [(JSNumber.ofRat 75, true), (JSNumber.ofRat 80, true)]
          initialCounters).1 0 =
        trailingRun ([(JSNumber.ofRat 75, true), (JSNumber.ofRat 80, true)].map Prod.fst) :=
  have h : trailingRun ([(JSNumber.ofRat 75, true), (JSNumber.ofRat 80, true)].map Prod.fst)
      < THRESHOLD_COUNT := by
    simp [trailingRun, List.takeWhile, JSNumber.ofRat_gt_threshold, THRESHOLD_COUNT]
    norm_num
  ⟨h, (counter_tracks_trailing_run 0
    [(JSNumber.ofRat 75, true), (JSNumber.ofRat 80, true)]).2.2.1 h⟩

/-- C2: starting from a counter of 0, three consecutive readings above 70 issue
no reportFault call on the first two readings and exactly one on the third; when
the ledger accepts that report the counter is 0 right after the third reading. -/
theorem three_high_readings_trigger_once (a : Nat) (t1 t2 t3 : JSNumber) (ok1 ok2 : Bool)
    (cnt : Counters) (h0 : cnt a = 0)
    (h1 : t1.gt TEMP_THRESHOLD = true) (h2 : t2.gt TEMP_THRESHOLD = true)
    (h3 : t3.gt TEMP_THRESHOLD = true) :
    (feedReadings a [(t1, ok1), (t2, ok2), (t3, true)] cnt).2 =
        [[], [], [⟨a, "Predictive maintenance triggered (High temperature)"⟩]] ∧
      (feedReadings a [(t1, ok1), (t2, ok2), (t3, true)] cnt).1 a = 0 := by
  simp [feedReadings, checkThreshold, h0, h1, h2, h3, setCounter, THRESHOLD_COUNT]

/-- Witness for C2: the readings 75, 80, 78 from the initial counters. -/
theorem three_high_readings_trigger_once_witness :
    (feedReadings 0 [(JSNumber.ofRat 75, true), (JSNumber.ofRat 80, true),
        (JSNumber.ofRat 78, true)] initialCounters).2 =
        [[], [], [⟨0, "Predictive maintenance triggered (High temperature)"⟩]] ∧
      (feedReadings 0 [(JSNumber.ofRat 75, true), (JSNumber.ofRat 80, true),
        (JSNumber.ofRat 78, true)] initialCounters).1 0 = 0 :=
  three_high_readings_trigger_once 0 (JSNumber.ofRat 75) (JSNumber.ofRat 80)
    (JSNumber.ofRat 78) true true initialCounters rfl
    (by rw [JSNumber.ofRat_gt_threshold]; norm_num)
    (by rw [JSNumber.ofRat_gt_threshold]; norm_num)
    (by rw [JSNumber.ofRat_gt_threshold]; norm_num)

/-- C3 (the code at the failing input): on the readings 75, 80, 78 from the
initial counters, when the ledger rejects the reportFault call issued on the
third reading, the counter is 3 when checkThreshold returns, not 0: the reset
written under the comment "Reset so we don't spam" sits after the awaited call
inside the try and is skipped when the call throws. -/
theorem failed_report_keeps_counter :
    (feedReadings 0 [(JSNumber.ofRat 75, true), (JSNumber.ofRat 80, true),
        (JSNumber.ofRat 78, false)] initialCounters).2 =
        [[], [], [⟨0, "Predictive maintenance triggered (High temperature)"⟩]] ∧
      (feedReadings 0 [(JSNumber.ofRat 75, true), (JSNumber.ofRat 80, true),
        (JSNumber.ofRat 78, false)] initialCounters).1 0 = 3 := by
  constructor
  · simp [feedReadings, checkThreshold_calls, checkThreshold_counter,
      JSNumber.ofRat_gt_threshold, initialCounters]
    norm_num
  · simp [feedReadings, checkThreshold_counter, JSNumber.ofRat_gt_threshold, initialCounters]
    norm_num

/-- The reset as coded: whenever checkThreshold issues the reportFault call, the
counter has reached THRESHOLD_COUNT; it is 0 on return when the ledger call
succeeds, and when the ledger call fails the reset is skipped: the counter keeps
the value reached, one more than before the call and at least THRESHOLD_COUNT. -/
theorem reset_only_after_accepted_report (ok : Bool) (a : Nat) (t : JSNumber) (cnt : Counters)
    (hcall : (checkThreshold ok a t cnt).2 ≠ []) :
    THRESHOLD_COUNT ≤ cnt a + 1 ∧
      (ok = true → (checkThreshold ok a t cnt).1 a = 0) ∧
      (ok = false → (checkThreshold ok a t cnt).1 a = cnt a + 1) := by
  rw [checkThreshold_calls] at hcall
  rw [checkThreshold_counter]
  by_cases h : t.gt TEMP_THRESHOLD = true ∧ 3 ≤ cnt a + 1
  · obtain ⟨hg, h3⟩ := h
    cases ok <;> simp [hg, h3, THRESHOLD_COUNT]
  · exact absurd (if_neg h) hcall

/-- The reset as coded, at a counter of 2, a reading of 78 and a rejecting ledger. -/
theorem reset_only_after_accepted_report_witness :
    THRESHOLD_COUNT ≤ setCounter initialCounters 0 2 0 + 1 ∧
      (false = true →
        (checkThreshold false 0 (JSNumber.ofRat 78) (setCounter initialCounters 0 2)).1 0 = 0) ∧
      (false = false →
        (checkThreshold false 0 (JSNumber.ofRat 78) (setCounter initialCounters 0 2)).1 0 =
          setCounter initialCounters 0 2 0 + 1) :=
  reset_only_after_accepted_report false 0 (JSNumber.ofRat 78) (setCounter initialCounters 0 2)
    (by rw [checkThreshold_ofRat_high false 0 78 (by norm_num)]; simp [setCounter, initialCounters])

/-- A run of readings above 70 with an accepting ledger, from any counter below 3. -/
theorem feedReadings_high_run (a : Nat) (ts : List JSNumber)
    (hts : ∀ t ∈ ts, t.gt TEMP_THRESHOLD = true) (cnt : Counters) (hc : cnt a < 3) :
    (feedReadings a (ts.map (fun t => (t, true))) cnt).2 =
        (List.range ts.length).map (fun i =>
          if (cnt a + i + 1) % 3 = 0 then
            [(⟨a, "Predictive maintenance triggered (High temperature)"⟩ : ReportFaultCall)]
          else []) ∧
      (((feedReadings a (ts.map (fun t => (t, true))) cnt).2).map List.length).sum =
        (cnt a + ts.length) / 3 ∧
      (feedReadings a (ts.map (fun t => (t, true))) cnt).1 a = (cnt a + ts.length) % 3 := by
  induction ts generalizing cnt with
  | nil =>
    simp [feedReadings]
    omega
  | cons t rest ih =>
    have hg : t.gt TEMP_THRESHOLD = true := hts t (by simp)
    have hc1 : (checkThreshold true a t cnt).1 a = (cnt a + 1) % 3 := by
      rw [checkThreshold_counter]
      simp only [hg, if_true]
      split_ifs <;> omega
    have hcalls := checkThreshold_calls true a t cnt
    obtain ⟨ih1, ih2, ih3⟩ := ih (fun t ht => hts t (by simp [ht]))
      (checkThreshold true a t cnt).1 (by rw [hc1]; omega)
    simp only [List.map_cons, feedReadings, List.length_cons]
    refine ⟨?_, ?_, ?_⟩
    · rw [List.range_succ_eq_map, List.map_cons, List.map_map, ih1, hcalls, hc1]
      congr 1
      · by_cases h3 : 3 ≤ cnt a + 1
        · have : (cnt a + 0 + 1) % 3 = 0 := by omega
          simp [hg, h3, this]
        · have : ¬ ((cnt a + 0 + 1) % 3 = 0) := by omega
          simp [h3, this]
      · apply List.map_congr_left
        intro i _
        have : ((cnt a + 1) % 3 + i + 1) % 3 = (cnt a + (i + 1) + 1) % 3 := by omega
        simp [this]
    · rw [List.sum_cons, ih2, hcalls, hc1]
      by_cases h3 : 3 ≤ cnt a + 1
      · simp only [hg, h3, and_self, if_true, List.length_singleton]
        omega
      · simp only [h3, and_false, if_false, List.length_nil]
        omega
    · rw [ih3, hc1]
      omega

/-- C4 (the code at the failing input): in the run 75, 80, 78, 90 with a ledger
that rejects every report, the fourth reading issues a reportFault call again, so
this run of 4 readings above 70 issues two calls, not floor(4/3) = 1: the reset
written under the comment "Reset so we don't spam" is skipped when the call
throws. -/
theorem rejected_report_fires_again :
    (feedReadings 0 [(JSNumber.ofRat 75, false), (JSNumber.ofRat 80, false),
        (JSNumber.ofRat 78, false), (JSNumber.ofRat 90, false)] initialCounters).2 =
      [[], [], [⟨0, "Predictive maintenance triggered (High temperature)"⟩],
        [⟨0, "Predictive maintenance triggered (High temperature)"⟩]] := by
  simp [feedReadings, checkThreshold_calls, checkThreshold_counter,
    JSNumber.ofRat_gt_threshold, initialCounters]
  norm_num

/-- A run over an accepting ledger: with a ledger that accepts every report, a
run of k consecutive readings above 70 starting from a counter of 0 issues a
reportFault call exactly on the readings whose position in the run is a multiple
of 3 (so none on the fourth), that is floor(k/3) calls in all, and leaves the
counter at k mod 3. -/
theorem accepted_run_fires_every_third (a : Nat) (ts : List JSNumber) (cnt : Counters)
    (h0 : cnt a = 0) (hts : ∀ t ∈ ts, t.gt TEMP_THRESHOLD = true) :
    (feedReadings a (ts.map (fun t => (t, true))) cnt).2 =
        (List.range ts.length).map (fun i =>
          if (i + 1) % 3 = 0 then
            [(⟨a, "Predictive maintenance triggered (High temperature)"⟩ : ReportFaultCall)]
          else []) ∧
      (((feedReadings a (ts.map (fun t => (t, true))) cnt).2).map List.length).sum =
        ts.length / 3 ∧
      (feedReadings a (ts.map (fun t => (t, true))) cnt).1 a = ts.length % 3 := by
  have h := feedReadings_high_run a ts hts cnt (by omega)
  simpa [h0] using h

/-- The run 75, 80, 78, 90 over an accepting ledger. -/
theorem accepted_run_fires_every_third_witness :
    (feedReadings 0 ([JSNumber.ofRat 75, JSNumber.ofRat 80, JSNumber.ofRat 78,
          JSNumber.ofRat 90].map (fun t => (t, true))) initialCounters).2 =
        (List.range [JSNumber.ofRat 75, JSNumber.ofRat 80, JSNumber.ofRat 78,
          JSNumber.ofRat 90].length).map (fun i =>
          if (i + 1) % 3 = 0 then
            [(⟨0, "Predictive maintenance triggered (High temperature)"⟩ : ReportFaultCall)]
          else []) ∧
      (((feedReadings 0 ([JSNumber.ofRat 75, JSNumber.ofRat 80, JSNumber.ofRat 78,
          JSNumber.ofRat 90].map (fun t => (t, true))) initialCounters).2).map
            List.length).sum =
        [JSNumber.ofRat 75, JSNumber.ofRat 80, JSNumber.ofRat 78,
          JSNumber.ofRat 90].length / 3 ∧
      (feedReadings 0 ([JSNumber.ofRat 75, JSNumber.ofRat 80, JSNumber.ofRat 78,
          JSNumber.ofRat 90].map (fun t => (t, true))) initialCounters).1 0 =
        [JSNumber.ofRat 75, JSNumber.ofRat 80, JSNumber.ofRat 78,
          JSNumber.ofRat 90].length % 3 :=
  accepted_run_fires_every_third 0
    [JSNumber.ofRat 75, JSNumber.ofRat 80, JSNumber.ofRat 78, JSNumber.ofRat 90]
    initialCounters rfl
    (by
      intro t ht
      simp only [List.mem_cons, List.mem_singleton, List.not_mem_nil, or_false] at ht
      rcases ht with h | h | h | h <;> subst h <;> rw [JSNumber.ofRat_gt_threshold] <;> norm_num)

/-- C5: a reading exactly equal to TEMP_THRESHOLD (70) counts as non-exceeding:
whatever the prior counters and whatever the ledger would answer, checkThreshold
sets the counter of the asset to 0 and issues no reportFault call. -/
theorem reading_at_threshold_resets (ok : Bool) (a : Nat) (cnt : Counters) :
    checkThreshold ok a (JSNumber.ofRat 70) cnt = (setCounter cnt a 0, []) ∧
      (checkThreshold ok a (JSNumber.ofRat 70) cnt).1 a = 0 ∧
      (checkThreshold ok a (JSNumber.ofRat 70) cnt).2 = [] := by
  have h : checkThreshold ok a (JSNumber.ofRat 70) cnt = (setCounter cnt a 0, []) := by
    unfold checkThreshold
    rw [JSNumber.ofRat_gt_threshold]
    simp [setCounter, THRESHOLD_COUNT]
  rw [h]
  simp [setCounter]

/-! ## Facts about rounding to the nearest double -/

namespace JSNumber

theorem roundHalfEven_near (y : ℚ) (hy : 0 ≤ y) : |(roundHalfEven y : ℚ) - y| ≤ 1 / 2 := by
  have h1 : (⌊y⌋₊ : ℚ) ≤ y := Nat.floor_le hy
  have h2 : y < ⌊y⌋₊ + 1 := Nat.lt_floor_add_one y
  unfold roundHalfEven
  simp only
  rw [abs_le]
  split_ifs <;> push_cast <;> constructor <;> linarith

theorem roundHalfEven_eq (y : ℚ) (m : ℕ) (hy : 0 ≤ y) (h : |y - m| < 1 / 2) :
    roundHalfEven y = m := by
  rw [abs_lt] at h
  obtain ⟨hlo, hhi⟩ := h
  unfold roundHalfEven
  simp only
  by_cases hm : (m : ℚ) ≤ y
  · have hf : ⌊y⌋₊ = m := (Nat.floor_eq_iff hy).2 ⟨hm, by linarith⟩
    rw [hf, if_pos (by linarith)]
  · have hm' : y < m := not_le.mp hm
    have hpos : 0 < m := by
      rcases Nat.eq_zero_or_pos m with h0 | h0
      · subst h0
        simp at hm'
        linarith
      · exact h0
    obtain ⟨n, rfl⟩ : ∃ n, m = n + 1 := ⟨m - 1, by omega⟩
    push_cast at hlo hhi hm'
    have hf : ⌊y⌋₊ = n := (Nat.floor_eq_iff hy).2 ⟨by linarith, by linarith⟩
    rw [hf, if_neg (by linarith), if_pos (by linarith)]

theorem log2_floor_ge (y : ℚ) (k : ℕ) (h1 : (2 : ℚ) ^ k ≤ y) :
    k ≤ Nat.log2 ⌊y⌋₊ ∧ (2 : ℚ) ^ Nat.log2 ⌊y⌋₊ ≤ y := by
  have hnn : (0 : ℚ) ≤ y := le_trans (by positivity) h1
  have hN1 : 2 ^ k ≤ ⌊y⌋₊ := by
    rw [Nat.le_floor_iff hnn, Nat.cast_pow, Nat.cast_ofNat]
    exact h1
  have hne : ⌊y⌋₊ ≠ 0 := by
    have : 0 < 2 ^ k := Nat.pos_pow_of_pos k (by norm_num)
    omega
  refine ⟨(Nat.le_log2 hne).2 hN1, ?_⟩
  have h := (Nat.le_log2 hne).1 (le_refl _)
  have h' : ((2 ^ Nat.log2 ⌊y⌋₊ : ℕ) : ℚ) ≤ (⌊y⌋₊ : ℚ) := Nat.cast_le.2 h
  rw [Nat.cast_pow, Nat.cast_ofNat] at h'
  exact le_trans h' (Nat.floor_le hnn)

theorem log2_floor_lt (y : ℚ) (k : ℕ) (hy : 0 ≤ y) (h2 : y < (2 : ℚ) ^ (k + 1)) :
    Nat.log2 ⌊y⌋₊ ≤ k := by
  have hN2 : ⌊y⌋₊ < 2 ^ (k + 1) := by
    rw [Nat.floor_lt hy, Nat.cast_pow, Nat.cast_ofNat]
    exact h2
  by_cases hne : ⌊y⌋₊ = 0
  · rw [hne, Nat.log2_zero]
    exact Nat.zero_le k
  · have b := (Nat.log2_lt hne).2 hN2
    omega

theorem ulpExp_eq (x : ℚ) (k : ℕ) (h1 : (2 : ℚ) ^ k ≤ x * 2 ^ 1074)
    (h2 : x * 2 ^ 1074 < (2 : ℚ) ^ (k + 1)) :
    ulpExp x = ((k - 52 : ℕ) : ℤ) - 1074 := by
  unfold ulpExp
  generalize x * 2 ^ 1074 = y at h1 h2
  have a := (log2_floor_ge y k h1).1
  have b := log2_floor_lt y k (le_trans (by positivity) h1) h2
  have hk : Nat.log2 ⌊y⌋₊ = k := le_antisymm b a
  rw [hk]

theorem ulpExp_subnormal (x : ℚ) (hx : 0 ≤ x) (h : x * 2 ^ 1074 < 2 ^ 53) :
    ulpExp x = -1074 := by
  unfold ulpExp
  have hnn : (0 : ℚ) ≤ x * 2 ^ 1074 := mul_nonneg hx (by positivity)
  generalize x * 2 ^ 1074 = y at h hnn
  have b := log2_floor_lt y 52 hnn h
  have hk : Nat.log2 ⌊y⌋₊ - 52 = 0 := by omega
  rw [hk]
  simp

theorem roundMag_eq (x : ℚ) (E : ℤ) (m : ℕ) (hx : 0 ≤ x) (hE : ulpExp x = E)
    (hm : |x / 2 ^ E - m| < 1 / 2) (hfin : (m : ℚ) * 2 ^ E < 2 ^ 1024) :
    roundMag x = some ((m : ℚ) * 2 ^ E) := by
  have hpos : (0 : ℚ) < 2 ^ E := by positivity
  unfold roundMag
  simp only
  rw [hE, roundHalfEven_eq (x / 2 ^ E) m (div_nonneg hx (le_of_lt hpos)) hm, if_pos hfin]

theorem two_zpow_mul_pow (a : ℤ) (b : ℕ) : (2 : ℚ) ^ a * 2 ^ b = 2 ^ (a + b) := by
  rw [zpow_add₀ (by norm_num), zpow_natCast]

/-- Rounding a magnitude in the normal range has relative error at most 2^-53. -/
theorem roundMag_normal (x : ℚ) (hlo : (2 : ℚ) ^ (-1022 : ℤ) ≤ x) (hhi : x < 2 ^ 1023) :
    ∃ v, roundMag x = some v ∧ |v - x| ≤ x * 2 ^ (-53 : ℤ) := by
  have hx : 0 < x := lt_of_lt_of_le (by positivity) hlo
  have h52 : (2 : ℚ) ^ 52 ≤ x * 2 ^ 1074 := by
    have e : (2 : ℚ) ^ (-1022 : ℤ) * 2 ^ 1074 = 2 ^ 52 := by
      rw [two_zpow_mul_pow, ← zpow_natCast]
      norm_num
    rw [← e]
    exact mul_le_mul_of_nonneg_right hlo (by positivity)
  have hE : ulpExp x = (Nat.log2 ⌊x * 2 ^ 1074⌋₊ : ℤ) - 52 - 1074 := by
    have := (log2_floor_ge _ 52 h52).1
    unfold ulpExp
    omega
  have hkle := (log2_floor_ge _ 52 h52).2
  generalize Nat.log2 ⌊x * 2 ^ 1074⌋₊ = k at hE hkle
  have hpos : (0 : ℚ) < 2 ^ ulpExp x := by positivity
  have hulp : (2 : ℚ) ^ ulpExp x ≤ x * 2 ^ (-52 : ℤ) := by
    have e1 : (2 : ℚ) ^ ulpExp x = 2 ^ k * 2 ^ (-1074 : ℤ) * 2 ^ (-52 : ℤ) := by
      rw [hE, sub_eq_add_neg, sub_eq_add_neg, zpow_add₀ (by norm_num), zpow_add₀ (by norm_num),
        zpow_natCast]
      ring
    have e2 : x * 2 ^ 1074 * 2 ^ (-1074 : ℤ) = x := by
      rw [mul_assoc, mul_comm ((2 : ℚ) ^ 1074), two_zpow_mul_pow]
      norm_num
    rw [e1]
    have : (2 : ℚ) ^ k * 2 ^ (-1074 : ℤ) ≤ x := by
      conv_rhs => rw [← e2]
      exact mul_le_mul_of_nonneg_right hkle (by positivity)
    exact mul_le_mul_of_nonneg_right this (by positivity)
  have hnear := roundHalfEven_near (x / 2 ^ ulpExp x) (by positivity)
  have herr : |(roundHalfEven (x / 2 ^ ulpExp x) : ℚ) * 2 ^ ulpExp x - x| ≤ x * 2 ^ (-53 : ℤ) := by
    have e : (roundHalfEven (x / 2 ^ ulpExp x) : ℚ) * 2 ^ ulpExp x - x
        = ((roundHalfEven (x / 2 ^ ulpExp x) : ℚ) - x / 2 ^ ulpExp x) * 2 ^ ulpExp x := by
      field_simp
    have e53 : x * (2 : ℚ) ^ (-53 : ℤ) = 1 / 2 * (x * 2 ^ (-52 : ℤ)) := by
      have : (2 : ℚ) ^ (-52 : ℤ) = 2 * 2 ^ (-53 : ℤ) := by
        rw [show (-52 : ℤ) = 1 + -53 by norm_num, zpow_add₀ (by norm_num), zpow_one]
      rw [this]
      ring
    rw [e, abs_mul, abs_of_pos hpos, e53]
    calc |(roundHalfEven (x / 2 ^ ulpExp x) : ℚ) - x / 2 ^ ulpExp x| * 2 ^ ulpExp x
        ≤ 1 / 2 * 2 ^ ulpExp x := mul_le_mul_of_nonneg_right hnear (le_of_lt hpos)
      _ ≤ 1 / 2 * (x * 2 ^ (-52 : ℤ)) := mul_le_mul_of_nonneg_left hulp (by norm_num)
  refine ⟨(roundHalfEven (x / 2 ^ ulpExp x) : ℚ) * 2 ^ ulpExp x, ?_, herr⟩
  unfold roundMag
  simp only
  rw [if_pos]
  have h3 := (abs_le.1 herr).2
  have h4 : x * 2 ^ (-53 : ℤ) ≤ x := by
    have : (2 : ℚ) ^ (-53 : ℤ) ≤ 1 := zpow_le_one_of_nonpos₀ (by norm_num) (by norm_num)
    nlinarith
  have h5 : (2 : ℚ) ^ 1024 = 2 * 2 ^ 1023 := by
    rw [show (1024 : ℕ) = 1023 + 1 by norm_num, pow_succ]
    ring
  rw [h5]
  linarith

end JSNumber

namespace JSNumber

theorem ulpExp_of_binade (x : ℚ) (e : ℤ) (he : -1022 ≤ e) (h1 : (2 : ℚ) ^ e ≤ x)
    (h2 : x < 2 ^ (e + 1)) : ulpExp x = e - 52 := by
  obtain ⟨k, hk⟩ : ∃ k : ℕ, (k : ℤ) = e + 1074 := ⟨(e + 1074).toNat, by omega⟩
  have e1 : (2 : ℚ) ^ k = 2 ^ e * 2 ^ 1074 := by
    rw [two_zpow_mul_pow, ← zpow_natCast, hk]
    norm_num
  have e2 : (2 : ℚ) ^ (k + 1) = 2 ^ (e + 1) * 2 ^ 1074 := by
    rw [two_zpow_mul_pow, ← zpow_natCast]
    congr 1
    push_cast
    omega
  have hp : (0 : ℚ) < 2 ^ 1074 := by positivity
  rw [ulpExp_eq x k (by rw [e1]; exact mul_le_mul_of_nonneg_right h1 (le_of_lt hp))
    (by rw [e2]; exact mul_lt_mul_of_pos_right h2 hp)]
  omega

theorem roundMag_of_binade (x : ℚ) (e : ℤ) (m : ℕ) (he : -1022 ≤ e) (he2 : e ≤ 1022)
    (h1 : (2 : ℚ) ^ e ≤ x) (h2 : x < 2 ^ (e + 1)) (hm : |x / 2 ^ (e - 52) - m| < 1 / 2) :
    roundMag x = some ((m : ℚ) * 2 ^ (e - 52)) := by
  have hx : 0 ≤ x := le_trans (by positivity) h1
  have hpos : (0 : ℚ) < 2 ^ (e - 52) := by positivity
  apply roundMag_eq x (e - 52) m hx (ulpExp_of_binade x e he h1 h2) hm
  -- the rounded value stays below 2 ^ (e + 1) ≤ 2 ^ 1023
  have hq : x / 2 ^ (e - 52) < 2 ^ 53 := by
    rw [div_lt_iff₀ hpos]
    have : (2 : ℚ) ^ 53 * 2 ^ (e - 52) = 2 ^ (e + 1) := by
      rw [mul_comm, two_zpow_mul_pow]
      congr 1
      push_cast
      omega
    rw [this]
    exact h2
  have hm2 : (m : ℚ) < 2 ^ 53 + 1 / 2 := by
    have := (abs_lt.1 hm).1
    linarith
  have hm3 : m ≤ 2 ^ 53 := by
    by_contra hcon
    have h' : 2 ^ 53 + 1 ≤ m := by omega
    have h'' : ((2 ^ 53 + 1 : ℕ) : ℚ) ≤ (m : ℚ) := Nat.cast_le.2 h'
    push_cast at h''
    linarith
  have hm4 : (m : ℚ) ≤ 2 ^ 53 := by
    have h'' : (m : ℚ) ≤ ((2 ^ 53 : ℕ) : ℚ) := Nat.cast_le.2 hm3
    push_cast at h''
    exact h''
  calc (m : ℚ) * 2 ^ (e - 52) ≤ 2 ^ 53 * 2 ^ (e - 52) :=
        mul_le_mul_of_nonneg_right hm4 (le_of_lt hpos)
    _ = 2 ^ (e + 1) := by
        rw [mul_comm, two_zpow_mul_pow]
        congr 1
        push_cast
        omega
    _ ≤ 2 ^ (1023 : ℤ) := zpow_le_zpow_right₀ (by norm_num) (by omega)
    _ < 2 ^ 1024 := by
        rw [← zpow_natCast]
        exact zpow_lt_zpow_right₀ (by norm_num) (by norm_num)

theorem round_of_binade (neg : Bool) (x : ℚ) (e : ℤ) (m : ℕ) (he : -1022 ≤ e) (he2 : e ≤ 1022)
    (h1 : (2 : ℚ) ^ e ≤ x) (h2 : x < 2 ^ (e + 1)) (hm : |x / 2 ^ (e - 52) - m| < 1 / 2) :
    round neg x = fin neg ((m : ℚ) * 2 ^ (e - 52)) := by
  unfold round
  rw [roundMag_of_binade x e m he he2 h1 h2 hm]

theorem ofRat_of_nonneg (q : ℚ) (h : 0 ≤ q) : ofRat q = fin false q := by
  simp [ofRat, abs_of_nonneg h, not_lt.mpr h]

end JSNumber

open JSNumber

theorem JSNumber.round_exact (neg : Bool) (x : ℚ) (e : ℤ) (m : ℕ) (he : -1022 ≤ e)
    (he2 : e ≤ 1022) (hm1 : 2 ^ 52 ≤ m) (hm2 : m < 2 ^ 53) (hx : x = (m : ℚ) * 2 ^ (e - 52)) :
    JSNumber.round neg x = fin neg x := by
  have hpos : (0 : ℚ) < 2 ^ (e - 52) := by positivity
  have c1 : ((2 : ℚ) ^ 52) ≤ (m : ℚ) := by
    have h : ((2 ^ 52 : ℕ) : ℚ) ≤ (m : ℚ) := Nat.cast_le.2 hm1
    push_cast at h
    exact h
  have c2 : (m : ℚ) < (2 : ℚ) ^ 53 := by
    have h : (m : ℚ) < ((2 ^ 53 : ℕ) : ℚ) := Nat.cast_lt.2 hm2
    push_cast at h
    exact h
  have e1 : (2 : ℚ) ^ e = 2 ^ 52 * 2 ^ (e - 52) := by
    rw [mul_comm, two_zpow_mul_pow]
    congr 1
    push_cast
    omega
  have e2 : (2 : ℚ) ^ (e + 1) = 2 ^ 53 * 2 ^ (e - 52) := by
    rw [mul_comm, two_zpow_mul_pow]
    congr 1
    push_cast
    omega
  have h := round_of_binade neg x e m he he2
    (by rw [hx, e1]; exact mul_le_mul_of_nonneg_right c1 (le_of_lt hpos))
    (by rw [hx, e2]; exact mul_lt_mul_of_pos_right c2 hpos)
    (by rw [hx, mul_div_assoc, div_self (ne_of_gt hpos)]; norm_num)
  rw [h, hx]

theorem JSNumber.roundMag_rel (x : ℚ) (a b : ℤ) (ha : -1022 ≤ a) (hb : b < 1023)
    (h1 : (2 : ℚ) ^ a ≤ x) (h2 : x ≤ 2 ^ b) :
    ∃ v, roundMag x = some v ∧ x * (1 - 2 ^ (-53 : ℤ)) ≤ v ∧ v ≤ x * (1 + 2 ^ (-53 : ℤ)) ∧
      (2 : ℚ) ^ (a - 1) ≤ v ∧ v ≤ 2 ^ (b + 1) := by
  have hx : 0 < x := lt_of_lt_of_le (by positivity) h1
  have hlo : (2 : ℚ) ^ (-1022 : ℤ) ≤ x := le_trans (zpow_le_zpow_right₀ (by norm_num) ha) h1
  have hhi : x < 2 ^ 1023 := by
    rw [← zpow_natCast]
    exact lt_of_le_of_lt h2 (zpow_lt_zpow_right₀ (by norm_num) (by exact_mod_cast hb))
  obtain ⟨v, hv, herr⟩ := roundMag_normal x hlo hhi
  have hu : (2 : ℚ) ^ (-53 : ℤ) ≤ 1 / 2 := by norm_num
  have hu0 : (0 : ℚ) < 2 ^ (-53 : ℤ) := by positivity
  obtain ⟨e1, e2⟩ := abs_le.1 herr
  have hxu : x * 2 ^ (-53 : ℤ) ≤ x * (1 / 2) := mul_le_mul_of_nonneg_left hu (le_of_lt hx)
  clear hlo hhi herr
  generalize (2 : ℚ) ^ (-53 : ℤ) = u at *
  refine ⟨v, hv, by linarith, by linarith, ?_, ?_⟩
  · have : (2 : ℚ) ^ (a - 1) = 2 ^ a * (1 / 2) := by
      rw [zpow_sub₀ (by norm_num), zpow_one]
      ring
    rw [this]
    linarith
  · have : (2 : ℚ) ^ (b + 1) = 2 ^ b * 2 := by
      rw [zpow_add₀ (by norm_num), zpow_one]
    rw [this]
    linarith

theorem two_zpow_mul_le (a b : ℤ) (x y : ℚ) (hx : (2 : ℚ) ^ a ≤ x) (hy : (2 : ℚ) ^ b ≤ y) :
    (2 : ℚ) ^ (a + b) ≤ x * y := by
  rw [zpow_add₀ (by norm_num)]
  exact mul_le_mul hx hy (by positivity) (le_trans (by positivity) hx)

theorem mul_le_two_zpow (a b : ℤ) (x y : ℚ) (hy0 : 0 ≤ y) (hx : x ≤ 2 ^ a)
    (hy : y ≤ 2 ^ b) : x * y ≤ (2 : ℚ) ^ (a + b) := by
  rw [zpow_add₀ (by norm_num)]
  exact mul_le_mul hx hy hy0 (by positivity)

/-- The floating point pipeline of the reimbursement, on magnitudes: three
roundings, then the rounding to 18 decimals. -/
theorem reimbursement_pipeline (c : ℕ) (p q : ℚ)
    (hc1 : 1 ≤ c) (hc2 : c < 2 ^ 256)
    (hp1 : 1 / 10 ^ 30 ≤ p) (hp2 : p ≤ 10 ^ 30) (hq1 : 1 / 10 ^ 30 ≤ q) (hq2 : q ≤ 10 ^ 30)
    (hlim : (c : ℚ) * p / q < 10 ^ 38) :
    ∃ g f r : ℚ, roundMag ((c : ℚ) / 10 ^ 18) = some g ∧ roundMag (g * p) = some f ∧
      roundMag (f / q) = some r ∧ 0 ≤ r ∧ r < 10 ^ 21 ∧
      |(⌊r * 10 ^ 18 + 1 / 2⌋₊ : ℚ) - c * p / q| ≤ c * p / q * 2 ^ (-51 : ℤ) + 1 / 2 := by
  have hp0 : 0 < p := lt_of_lt_of_le (by norm_num) hp1
  have hq0 : 0 < q := lt_of_lt_of_le (by norm_num) hq1
  have hpl : (2 : ℚ) ^ (-100 : ℤ) ≤ p := le_trans (by norm_num) hp1
  have hph : p ≤ (2 : ℚ) ^ (100 : ℤ) := le_trans hp2 (by norm_num)
  have hqil : (2 : ℚ) ^ (-100 : ℤ) ≤ q⁻¹ := by
    have h : q⁻¹ ≥ ((10 : ℚ) ^ 30)⁻¹ := inv_anti₀ hq0 hq2
    exact le_trans (by norm_num) h
  have hqih : q⁻¹ ≤ (2 : ℚ) ^ (100 : ℤ) := by
    have h : q⁻¹ ≤ ((1 : ℚ) / 10 ^ 30)⁻¹ := inv_anti₀ (by norm_num) hq1
    exact le_trans h (by norm_num)
  have hcq1 : (1 : ℚ) ≤ c := by exact_mod_cast hc1
  have hcq2 : (c : ℚ) ≤ 2 ^ 256 := by
    have h : (c : ℚ) < ((2 ^ 256 : ℕ) : ℚ) := Nat.cast_lt.2 hc2
    rw [Nat.cast_pow, Nat.cast_ofNat] at h
    exact le_of_lt h
  have hx1l : (2 : ℚ) ^ (-60 : ℤ) ≤ (c : ℚ) / 10 ^ 18 := by
    have : (1 : ℚ) / 10 ^ 18 ≤ (c : ℚ) / 10 ^ 18 :=
      div_le_div_of_nonneg_right hcq1 (by positivity)
    exact le_trans (by norm_num) this
  have hx1h : (c : ℚ) / 10 ^ 18 ≤ (2 : ℚ) ^ (256 : ℤ) := by
    have h1 : (c : ℚ) / 10 ^ 18 ≤ c := div_le_self (by positivity) (by norm_num)
    have h2 : (2 : ℚ) ^ (256 : ℤ) = 2 ^ 256 := by
      rw [← zpow_natCast]
      norm_num
    rw [h2]
    exact le_trans h1 hcq2
  obtain ⟨g, hg, hgl, hgh, hgl2, hgh2⟩ :=
    roundMag_rel _ (-60) 256 (by norm_num) (by norm_num) hx1l hx1h
  have hg0 : 0 < g := lt_of_lt_of_le (by positivity) hgl2
  obtain ⟨f, hf, hfl, hfh, hfl2, hfh2⟩ :=
    roundMag_rel (g * p) (-60 - 1 + -100) (256 + 1 + 100) (by norm_num) (by norm_num)
      (two_zpow_mul_le _ _ _ _ hgl2 hpl) (mul_le_two_zpow _ _ _ _ (le_of_lt hp0) hgh2 hph)
  have hf0 : 0 < f := lt_of_lt_of_le (by positivity) hfl2
  have hqi0 : 0 < q⁻¹ := inv_pos.2 hq0
  obtain ⟨r, hr, hrl, hrh, hrl2, -⟩ :=
    roundMag_rel (f / q) (-60 - 1 + -100 - 1 + -100) (256 + 1 + 100 + 1 + 100) (by norm_num)
      (by norm_num)
      (by rw [div_eq_mul_inv]; exact two_zpow_mul_le _ _ _ _ hfl2 hqil)
      (by rw [div_eq_mul_inv]; exact mul_le_two_zpow _ _ _ _ (le_of_lt hqi0) hfh2 hqih)
  have hr0 : 0 < r := lt_of_lt_of_le (by positivity) hrl2
  have hu0 : (0 : ℚ) < 2 ^ (-53 : ℤ) := by positivity
  have hu4 : (2 : ℚ) ^ (-53 : ℤ) ≤ 1 / 4 := by norm_num
  have h51 : (2 : ℚ) ^ (-51 : ℤ) = 4 * 2 ^ (-53 : ℤ) := by norm_num
  rw [h51]
  clear hgl2 hgh2 hfl2 hfh2 hrl2 hx1l hx1h hpl hph hqil hqih h51 hc2 hcq2 hp1 hp2 hq1 hq2
  generalize (2 : ℚ) ^ (-53 : ℤ) = u at *
  -- the exact amount, in tokens and in wei
  have hx1 : 0 < (c : ℚ) / 10 ^ 18 := by positivity
  set x1 : ℚ := (c : ℚ) / 10 ^ 18 with hx1def
  have hE : (c : ℚ) * p / q = x1 * p / q * 10 ^ 18 := by
    rw [hx1def]
    field_simp
    ring
  have hEpos : 0 < x1 * p / q := by positivity
  have h1u : 0 < 1 - u := by linarith
  have h1u' : 0 < 1 + u := by linarith
  have hup : r ≤ x1 * p / q * (1 + u) ^ 3 := by
    calc r ≤ f / q * (1 + u) := hrh
      _ ≤ (g * p * (1 + u)) / q * (1 + u) := by gcongr
      _ ≤ (x1 * (1 + u) * p * (1 + u)) / q * (1 + u) := by gcongr
      _ = x1 * p / q * (1 + u) ^ 3 := by ring
  have hdn : x1 * p / q * (1 - u) ^ 3 ≤ r := by
    calc x1 * p / q * (1 - u) ^ 3 = (x1 * (1 - u) * p * (1 - u)) / q * (1 - u) := by ring
      _ ≤ (g * p * (1 - u)) / q * (1 - u) := by gcongr
      _ ≤ f / q * (1 - u) := by gcongr
      _ ≤ r := hrl
  have huu : u * u ≤ u * (1 / 4) := mul_le_mul_of_nonneg_left hu4 (le_of_lt hu0)
  have huu0 : 0 ≤ u * u := mul_nonneg (le_of_lt hu0) (le_of_lt hu0)
  have huuu : u * (u * u) ≤ u * (u * (1 / 4)) := mul_le_mul_of_nonneg_left huu (le_of_lt hu0)
  have huuu0 : 0 ≤ u * (u * u) := mul_nonneg (le_of_lt hu0) huu0
  have hc3 : (1 + u) ^ 3 ≤ 1 + 4 * u := by
    have e : (1 + u) ^ 3 = 1 + 3 * u + 3 * (u * u) + u * (u * u) := by ring
    have e' : u * (u * (1 / 4)) = 1 / 4 * (u * u) := by ring
    rw [e]
    rw [e'] at huuu
    generalize u * (u * u) = u3 at *
    generalize u * u = u2 at *
    linarith
  have hc3' : 1 - 4 * u ≤ (1 - u) ^ 3 := by
    have e : (1 - u) ^ 3 = 1 - 3 * u + 3 * (u * u) - u * (u * u) := by ring
    have e' : u * (u * (1 / 4)) = 1 / 4 * (u * u) := by ring
    rw [e]
    rw [e'] at huuu
    generalize u * (u * u) = u3 at *
    generalize u * u = u2 at *
    linarith
  clear huu huu0 huuu huuu0
  have hup' : r ≤ x1 * p / q * (1 + 4 * u) :=
    le_trans hup (mul_le_mul_of_nonneg_left hc3 (le_of_lt hEpos))
  have hdn' : x1 * p / q * (1 - 4 * u) ≤ r :=
    le_trans (mul_le_mul_of_nonneg_left hc3' (le_of_lt hEpos)) hdn
  have hElim : x1 * p / q < 10 ^ 20 := by
    rw [hE] at hlim
    linarith
  have hEu : x1 * p / q * (4 * u) ≤ x1 * p / q :=
    mul_le_of_le_one_right (le_of_lt hEpos) (by linarith)
  refine ⟨g, f, r, hg, hf, hr, le_of_lt hr0, ?_, ?_⟩
  · have : x1 * p / q * (1 + 4 * u) = x1 * p / q + x1 * p / q * (4 * u) := by ring
    linarith
  · have hy : (0 : ℚ) ≤ r * 10 ^ 18 + 1 / 2 := by positivity
    have hw1 := Nat.floor_le hy
    have hw2 := Nat.lt_floor_add_one (r * 10 ^ 18 + 1 / 2)
    rw [hE, abs_le]
    clear hup hdn hc3 hc3' hEu hElim hE hlim hrl hrh hfl hfh hgl hgh hg hf hr
    generalize x1 * p / q = E at *
    generalize (⌊r * 10 ^ 18 + 1 / 2⌋₊ : ℚ) = W at *
    have e1 : E * (1 + 4 * u) = E + 4 * (E * u) := by ring
    have e2 : E * (1 - 4 * u) = E - 4 * (E * u) := by ring
    have e3 : E * 10 ^ 18 * (4 * u) = 4 * 10 ^ 18 * (E * u) := by ring
    rw [e1] at hup'
    rw [e2] at hdn'
    rw [e3]
    generalize E * u = Eu at *
    constructor <;> linarith

/-! ## Facts about the settlement -/

theorem JSNumber.roundMag_nonneg (x v : ℚ) (h : roundMag x = some v) : 0 ≤ v := by
  unfold roundMag at h
  simp only at h
  by_cases hlt : (roundHalfEven (x / 2 ^ ulpExp x) : ℚ) * 2 ^ ulpExp x < 2 ^ 1024
  · rw [if_pos hlt] at h
    have e := Option.some.inj h
    rw [← e]
    clear h hlt e
    positivity
  · rw [if_neg hlt] at h
    exact absurd h (by simp)

theorem JSNumber.round_of_roundMag (neg : Bool) (x v : ℚ) (h : roundMag x = some v) :
    JSNumber.round neg x = fin neg v := by
  unfold JSNumber.round
  rw [h]

theorem JSNumber.mul_fin (s t : Bool) (m n : ℚ) :
    (fin s m).mul (fin t n) = JSNumber.round (xor s t) (m * n) := rfl

theorem JSNumber.div_fin (s t : Bool) (m n : ℚ) (hn : n ≠ 0) :
    (fin s m).div (fin t n) = JSNumber.round (xor s t) (m / n) := by
  simp only [JSNumber.div, if_neg hn]

theorem JSNumber.round_fin_nonneg (neg s : Bool) (x m : ℚ) (h : JSNumber.round neg x = fin s m) :
    0 ≤ m := by
  unfold JSNumber.round at h
  cases hr : roundMag x with
  | none => simp [hr] at h
  | some v =>
    simp only [hr, fin.injEq] at h
    rw [← h.2]
    exact roundMag_nonneg x v hr

theorem JSNumber.div_fin_nonneg (a b : JSNumber) (s : Bool) (m : ℚ) (h : a.div b = fin s m) :
    0 ≤ m := by
  cases a with
  | nan => simp [JSNumber.div] at h
  | inf sa =>
    cases b <;> simp [JSNumber.div] at h
  | fin sa ma =>
    cases b with
    | nan => simp [JSNumber.div] at h
    | inf sb =>
      simp only [JSNumber.div, fin.injEq] at h
      rw [← h.2]
    | fin sb mb =>
      simp only [JSNumber.div] at h
      split_ifs at h
      exact round_fin_nonneg _ _ _ _ h

/-- The wei amount spelled by `toFixed(18)` is within half a wei of the number. -/
theorem parseEtherFixed_toFixed18 (s : Bool) (m : ℚ) (w : ℤ) (hm : 0 ≤ m)
    (h : parseEtherFixed (fin s m).toFixed18 = some w) :
    m < 10 ^ 21 ∧ w = (if (s && decide (m ≠ 0)) = true then -(⌊m * 10 ^ 18 + 1 / 2⌋₊ : ℤ)
        else (⌊m * 10 ^ 18 + 1 / 2⌋₊ : ℤ)) ∧
      |(w : ℚ) - signed s m * 10 ^ 18| ≤ 1 / 2 := by
  have hy : (0 : ℚ) ≤ m * 10 ^ 18 + 1 / 2 := by positivity
  have hw1 := Nat.floor_le hy
  have hw2 := Nat.lt_floor_add_one (m * 10 ^ 18 + 1 / 2)
  simp only [toFixed18] at h
  by_cases hbig : (10 : ℚ) ^ 21 ≤ m
  · simp [hbig, parseEtherFixed] at h
  · rw [if_neg hbig] at h
    simp only [parseEtherFixed, Option.some.injEq] at h
    refine ⟨not_le.mp hbig, h.symm, ?_⟩
    rw [← h]
    clear h hbig
    generalize ⌊m * 10 ^ 18 + 1 / 2⌋₊ = n at *
    by_cases hm0 : m = 0
    · subst hm0
      have hn : n = 0 := by
        have h1 : (n : ℚ) < 1 := by linarith
        have h2 : n < 1 := by exact_mod_cast h1
        omega
      subst hn
      cases s <;> simp [signed]
    · cases s
      · simp only [Bool.false_and, Bool.false_eq_true, if_false, signed, Int.cast_natCast]
        rw [abs_le]
        constructor <;> linarith
      · simp only [Bool.true_and, decide_eq_true_eq, ne_eq, hm0, not_false_eq_true, if_true,
          signed, Int.cast_neg, Int.cast_natCast]
        rw [abs_le]
        constructor <;> linarith

theorem settleOnChain_effects (env : SettlementEnv) (a : ℕ) (store : GasCostStore) (t : ℤ)
    (u : String) (w : ℤ) (cd : Option CostData) :
    ∃ rest, (settleOnChain env a store t u w cd).1 = Effect.confirmPayment a t u w :: rest := by
  unfold settleOnChain
  cases cd <;> simp only <;> split_ifs <;> exact ⟨_, rfl⟩

theorem payTechnicianFor_snapshot (env : SettlementEnv) (a : ℕ) (store : GasCostStore)
    (s : String) (t : ℤ) (cd : CostData) (w : ℤ)
    (hpay : env.payInput a = some s) (hs : s ≠ "") (hparse : env.parseEther s = some t)
    (hsnap : env.dbGasMap a = some cd) (hw : userCostWei cd env.polPrice = some w) :
    payTechnicianFor env a store =
      (Effect.fetchPolPrice :: (settleOnChain env a store t cd.user w (some cd)).1,
        (settleOnChain env a store t cd.user w (some cd)).2) := by
  unfold payTechnicianFor
  simp [hpay, hs, hparse, hsnap, hw]

theorem payTechnicianFor_snapshot_effects (env : SettlementEnv) (a : ℕ) (store : GasCostStore)
    (s : String) (t : ℤ) (cd : CostData) (w : ℤ)
    (hpay : env.payInput a = some s) (hs : s ≠ "") (hparse : env.parseEther s = some t)
    (hsnap : env.dbGasMap a = some cd) (hw : userCostWei cd env.polPrice = some w) :
    ∃ rest, (payTechnicianFor env a store).1 =
      Effect.fetchPolPrice :: Effect.confirmPayment a t cd.user w :: rest := by
  obtain ⟨rest, hrest⟩ := settleOnChain_effects env a store t cd.user w (some cd)
  refine ⟨rest, ?_⟩
  rw [payTechnicianFor_snapshot env a store s t cd w hpay hs hparse hsnap hw, hrest]

theorem JSNumber.roundMag_exact (x : ℚ) (e : ℤ) (m : ℕ) (he : -1022 ≤ e)
    (he2 : e ≤ 1022) (hm1 : 2 ^ 52 ≤ m) (hm2 : m < 2 ^ 53) (hx : x = (m : ℚ) * 2 ^ (e - 52)) :
    roundMag x = some x := by
  have h := round_exact false x e m he he2 hm1 hm2 hx
  unfold JSNumber.round at h
  cases hr : roundMag x with
  | none => simp [hr] at h
  | some v =>
    simp only [hr, fin.injEq, true_and] at h
    rw [h]

/-- The reimbursement when the divisor is a positive price. -/
theorem userCostWei_of_steps (user : String) (c : ℕ) (p q g f r : ℚ) (pf : PriceFetch)
    (hq : q ≠ 0) (hcur : currentPolUsd ⟨user, c, fin false p⟩ pf = fin false q)
    (hg : roundMag ((c : ℚ) / 10 ^ 18) = some g) (hf : roundMag (g * p) = some f)
    (hr : roundMag (f / q) = some r) (hr21 : r < 10 ^ 21) :
    userCostWei ⟨user, c, fin false p⟩ pf = some (⌊r * 10 ^ 18 + 1 / 2⌋₊ : ℤ) := by
  have h1 : gasCostPOL c = fin false g := round_of_roundMag false _ g hg
  have h2 : (fin false g).mul (fin false p) = fin false f := by
    rw [mul_fin]
    exact round_of_roundMag _ _ f hf
  have h3 : (fin false f).div (fin false q) = fin false r := by
    rw [div_fin _ _ _ _ hq]
    exact round_of_roundMag _ _ r hr
  simp only [userCostWei, reimbPolNow, fiatSpentUsd, hcur, h1, h2, h3, toFixed18]
  rw [if_neg (not_le.mpr hr21)]
  simp [parseEtherFixed]

theorem roundMag_one : roundMag (((10 ^ 18 : ℕ) : ℚ) / 10 ^ 18) = some 1 := by
  have e : (((10 ^ 18 : ℕ) : ℚ) / 10 ^ 18) = 1 := by norm_num
  rw [e]
  exact roundMag_exact 1 0 (2 ^ 52) (by norm_num) (by norm_num) (by norm_num) (by norm_num)
    (by norm_num)

theorem roundMag_half : roundMag (1 * (1 / 2)) = some (1 / 2) := by
  have e : ((1 : ℚ) * (1 / 2)) = 1 / 2 := by norm_num
  rw [e]
  exact roundMag_exact (1 / 2) (-1) (2 ^ 52) (by norm_num) (by norm_num) (by norm_num)
    (by norm_num) (by norm_num)

theorem roundMag_two : roundMag (1 / 2 / (1 / 4)) = some 2 := by
  have e : ((1 : ℚ) / 2 / (1 / 4)) = 2 := by norm_num
  rw [e]
  exact roundMag_exact 2 1 (2 ^ 52) (by norm_num) (by norm_num) (by norm_num)
    (by norm_num) (by norm_num)

theorem floor_two_tokens : ⌊(2 : ℚ) * 10 ^ 18 + 1 / 2⌋₊ = 2000000000000000000 := by
  rw [Nat.floor_eq_iff (by norm_num)]
  norm_num

/-- Snapshot of 1 token filed at 0.50 USD, live price 0.25 USD: 2 tokens. -/
theorem userCostWei_example (user : String) :
    userCostWei ⟨user, 10 ^ 18, fin false (1 / 2)⟩ (PriceFetch.price (fin false (1 / 4))) =
      some 2000000000000000000 := by
  have h := userCostWei_of_steps user (10 ^ 18) (1 / 2) (1 / 4) 1 (1 / 2) 2
    (PriceFetch.price (fin false (1 / 4))) (by norm_num) (by simp [currentPolUsd, truthy])
    roundMag_one roundMag_half roundMag_two (by norm_num)
  rw [h, floor_two_tokens]
  rfl

theorem roundMag_tenth :
    roundMag (((10 ^ 17 : ℕ) : ℚ) / 10 ^ 18) = some (7205759403792794 / 2 ^ 56) := by
  rw [roundMag_of_binade _ (-4) 7205759403792794 (by norm_num) (by norm_num)
      (by norm_num) (by norm_num) (by norm_num [abs_lt])]
  norm_num

theorem roundMag_tenth_mul :
    roundMag (7205759403792794 / 2 ^ 56 * (1 / 2)) = some (7205759403792794 / 2 ^ 57) := by
  rw [roundMag_of_binade _ (-5) 7205759403792794 (by norm_num) (by norm_num)
      (by norm_num) (by norm_num) (by norm_num [abs_lt])]
  norm_num

theorem roundMag_tenth_div :
    roundMag (7205759403792794 / 2 ^ 57 / (1 / 2)) = some (7205759403792794 / 2 ^ 56) := by
  rw [roundMag_of_binade _ (-4) 7205759403792794 (by norm_num) (by norm_num)
      (by norm_num) (by norm_num) (by norm_num [abs_lt])]
  norm_num

theorem floor_tenth :
    ⌊(7205759403792794 / 2 ^ 56 : ℚ) * 10 ^ 18 + 1 / 2⌋₊ = 100000000000000006 := by
  rw [Nat.floor_eq_iff (by norm_num)]
  norm_num

/-- Snapshot of 0.1 token at 0.50 USD, divided by a price of 0.50 USD again
(fetched, or the fallback): 6 wei more than the snapshot. -/
theorem userCostWei_tenth (user : String) (pf : PriceFetch)
    (hcur : currentPolUsd ⟨user, 10 ^ 17, fin false (1 / 2)⟩ pf = fin false (1 / 2)) :
    userCostWei ⟨user, 10 ^ 17, fin false (1 / 2)⟩ pf = some 100000000000000006 := by
  have h := userCostWei_of_steps user (10 ^ 17) (1 / 2) (1 / 2) _ _ _ pf (by norm_num) hcur
    roundMag_tenth roundMag_tenth_mul roundMag_tenth_div (by norm_num)
  rw [h, floor_tenth]
  rfl

theorem roundMag_small : roundMag (1 * (3 / 2 ^ 20)) = some (3 / 2 ^ 20) := by
  have e : ((1 : ℚ) * (3 / 2 ^ 20)) = 3 / 2 ^ 20 := by norm_num
  rw [e]
  exact roundMag_exact _ (-19) (3 * 2 ^ 51) (by norm_num) (by norm_num) (by norm_num)
    (by norm_num) (by norm_num)

theorem roundMag_small_div : roundMag (3 / 2 ^ 20 / 1) = some (3 / 2 ^ 20) := by
  have e : ((3 : ℚ) / 2 ^ 20 / 1) = 3 / 2 ^ 20 := by norm_num
  rw [e]
  exact roundMag_exact _ (-19) (3 * 2 ^ 51) (by norm_num) (by norm_num) (by norm_num)
    (by norm_num) (by norm_num)

theorem floor_small : ⌊(3 / 2 ^ 20 : ℚ) * 10 ^ 18 + 1 / 2⌋₊ = 2861022949219 := by
  rw [Nat.floor_eq_iff (by norm_num)]
  norm_num

/-- Snapshot of 1 token at 3 / 2 ^ 20 USD, live price 1 USD: every step is
exact and the amount is 2861022949218.75 wei, submitted as 2861022949219. -/
theorem userCostWei_small (user : String) :
    userCostWei ⟨user, 10 ^ 18, fin false (3 / 2 ^ 20)⟩ (PriceFetch.price (fin false 1)) =
      some 2861022949219 := by
  have h := userCostWei_of_steps user (10 ^ 18) (3 / 2 ^ 20) 1 1 (3 / 2 ^ 20) (3 / 2 ^ 20)
    (PriceFetch.price (fin false 1)) (by norm_num) (by simp [currentPolUsd, truthy])
    roundMag_one roundMag_small roundMag_small_div (by norm_num)
  rw [h, floor_small]
  rfl

/-! ## Claims about the settlement -/

/-- C6 (as stated, refuted): for a snapshot of 0.1 token (10^17 wei) filed at
0.50 USD and a fetched price of 0.50 USD, the wei amount of
(c / 10^18) * p / q tokens is 10^17, but payTechnicianFor submits
100000000000000006 to confirmPayment. -/
theorem reimbursement_not_exact :
    (payTechnicianFor
        (exampleEnv (some ⟨exampleUser, 10 ^ 17, fin false (1 / 2)⟩)
          (PriceFetch.price (fin false (1 / 2))) true) 0 []).1 =
      [Effect.fetchPolPrice,
        Effect.confirmPayment 0 (10 ^ 18) exampleUser 100000000000000006,
        Effect.alert Alert.paid,
        Effect.deleteGasCosts 0 exampleUser (10 ^ 17)] ∧
      (((10 ^ 17 : ℕ) : ℚ) / 10 ^ 18 * (1 / 2) / (1 / 2) * 10 ^ 18 = 100000000000000000) := by
  constructor
  · rw [payTechnicianFor_snapshot _ 0 [] "1" (10 ^ 18) ⟨exampleUser, 10 ^ 17, fin false (1 / 2)⟩
      100000000000000006 rfl (by decide) rfl rfl
      (userCostWei_tenth exampleUser _ (by simp [exampleEnv, currentPolUsd, truthy]))]
    simp [settleOnChain, exampleEnv]
  · norm_num

/-- C6 (amended): for a snapshot with costWei c (1 ≤ c < 2^256), filing-time
price p and a successfully fetched current price q, both between 10^-30 and
10^30, with c * p / q below 10^38 wei, payTechnicianFor submits to confirmPayment
a user reimbursement w computed in double precision: it differs from the exact
amount c * p / q wei (the same fiat value at the current price) by at most a
relative error of 2^-51 plus half a wei; for c = 10^18, p = 0.50, q = 0.25 it is
exactly 2 * 10^18. -/
theorem reimbursement_tracks_fiat_value (env : SettlementEnv) (a : ℕ) (store : GasCostStore)
    (s : String) (t : ℤ) (user : String) (c : ℕ) (p q : ℚ)
    (hpay : env.payInput a = some s) (hs : s ≠ "") (hparse : env.parseEther s = some t)
    (hsnap : env.dbGasMap a = some ⟨user, c, fin false p⟩)
    (hprice : env.polPrice = PriceFetch.price (fin false q))
    (hc1 : 1 ≤ c) (hc2 : c < 2 ^ 256)
    (hp1 : 1 / 10 ^ 30 ≤ p) (hp2 : p ≤ 10 ^ 30) (hq1 : 1 / 10 ^ 30 ≤ q) (hq2 : q ≤ 10 ^ 30)
    (hlim : (c : ℚ) * p / q < 10 ^ 38) :
    ∃ (w : ℕ) (rest : List Effect),
      (payTechnicianFor env a store).1 =
        Effect.fetchPolPrice :: Effect.confirmPayment a t user w :: rest ∧
      |(w : ℚ) - c * p / q| ≤ c * p / q * 2 ^ (-51 : ℤ) + 1 / 2 ∧
      (c = 10 ^ 18 → p = 1 / 2 → q = 1 / 4 → w = 2000000000000000000) := by
  have hq0 : q ≠ 0 := by
    have : (0 : ℚ) < 1 / 10 ^ 30 := by norm_num
    exact ne_of_gt (lt_of_lt_of_le this hq1)
  obtain ⟨g, f, r, hg, hf, hr, -, hr21, hbound⟩ :=
    reimbursement_pipeline c p q hc1 hc2 hp1 hp2 hq1 hq2 hlim
  have hcur : currentPolUsd ⟨user, c, fin false p⟩ (PriceFetch.price (fin false q)) =
      fin false q := by
    simp [currentPolUsd, truthy, hq0]
  have hw := userCostWei_of_steps user c p q g f r (PriceFetch.price (fin false q)) hq0 hcur
    hg hf hr hr21
  obtain ⟨rest, hrest⟩ := payTechnicianFor_snapshot_effects env a store s t
    ⟨user, c, fin false p⟩ _ hpay hs hparse hsnap (by rw [hprice]; exact hw)
  refine ⟨⌊r * 10 ^ 18 + 1 / 2⌋₊, rest, hrest, hbound, ?_⟩
  intro hc hp hq
  subst hc hp hq
  have h2 := userCostWei_example user
  rw [hw] at h2
  have h3 := Option.some.inj h2
  exact_mod_cast h3

/-- Witness for C6 (amended): the snapshot of 1 token at 0.50 USD with a fetched
price of 0.25 USD. -/
theorem reimbursement_tracks_fiat_value_witness :
    ∃ (w : ℕ) (rest : List Effect),
      (payTechnicianFor
        (exampleEnv (some ⟨exampleUser, 10 ^ 18, fin false (1 / 2)⟩)
          (PriceFetch.price (fin false (1 / 4))) true) 0 []).1 =
        Effect.fetchPolPrice :: Effect.confirmPayment 0 (10 ^ 18) exampleUser w :: rest ∧
      |(w : ℚ) - ((10 ^ 18 : ℕ) : ℚ) * (1 / 2) / (1 / 4)| ≤
        ((10 ^ 18 : ℕ) : ℚ) * (1 / 2) / (1 / 4) * 2 ^ (-51 : ℤ) + 1 / 2 ∧
      (10 ^ 18 = 10 ^ 18 → (1 / 2 : ℚ) = 1 / 2 → (1 / 4 : ℚ) = 1 / 4 →
        w = 2000000000000000000) :=
  reimbursement_tracks_fiat_value
    (exampleEnv (some ⟨exampleUser, 10 ^ 18, fin false (1 / 2)⟩)
      (PriceFetch.price (fin false (1 / 4))) true) 0 [] "1" (10 ^ 18) exampleUser (10 ^ 18)
    (1 / 2) (1 / 4) rfl (by decide) rfl rfl rfl (by norm_num) (by norm_num) (by norm_num)
    (by norm_num) (by norm_num) (by norm_num) (by norm_num)

/-- C7 (the code at the failing input): for a snapshot of 0.1 token (10^17 wei)
filed at 0.50 USD, when the price fetch throws payTechnicianFor falls back to the
snapshot price and submits 100000000000000006 wei to confirmPayment, 6 wei more
than the costWei of the snapshot. -/
theorem fallback_reimbursement_differs :
    currentPolUsd ⟨exampleUser, 10 ^ 17, fin false (1 / 2)⟩ PriceFetch.threw =
        fin false (1 / 2) ∧
      (payTechnicianFor
        (exampleEnv (some ⟨exampleUser, 10 ^ 17, fin false (1 / 2)⟩) PriceFetch.threw true)
        0 []).1 =
      [Effect.fetchPolPrice,
        Effect.confirmPayment 0 (10 ^ 18) exampleUser 100000000000000006,
        Effect.alert Alert.paid,
        Effect.deleteGasCosts 0 exampleUser (10 ^ 17)] := by
  constructor
  · rfl
  · rw [payTechnicianFor_snapshot _ 0 [] "1" (10 ^ 18) ⟨exampleUser, 10 ^ 17, fin false (1 / 2)⟩
      100000000000000006 rfl (by decide) rfl rfl (userCostWei_tenth exampleUser PriceFetch.threw rfl)]
    simp [settleOnChain, exampleEnv]

/-- C8 (as stated, refuted): for a snapshot of 1 token filed at 3 / 2^20 USD
and a fetched price of 1 USD, fiatSpentUsd is exactly 3 / 2^20 and the exact
value fiatSpent / currentPrice * 10^18 is 2861022949218.75 wei, but
payTechnicianFor submits 2861022949219: the amount is rounded up. -/
theorem reimbursement_rounded_up :
    (payTechnicianFor
        (exampleEnv (some ⟨exampleUser, 10 ^ 18, fin false (3 / 2 ^ 20)⟩)
          (PriceFetch.price (fin false 1)) true) 0 []).1 =
      [Effect.fetchPolPrice,
        Effect.confirmPayment 0 (10 ^ 18) exampleUser 2861022949219,
        Effect.alert Alert.paid,
        Effect.deleteGasCosts 0 exampleUser (10 ^ 18)] ∧
      fiatSpentUsd ⟨exampleUser, 10 ^ 18, fin false (3 / 2 ^ 20)⟩ = fin false (3 / 2 ^ 20) ∧
      currentPolUsd ⟨exampleUser, 10 ^ 18, fin false (3 / 2 ^ 20)⟩
        (PriceFetch.price (fin false 1)) = fin false 1 ∧
      ((3 / 2 ^ 20 : ℚ) / 1 * 10 ^ 18 < 2861022949219) := by
  refine ⟨?_, ?_, ?_, ?_⟩
  · rw [payTechnicianFor_snapshot _ 0 [] "1" (10 ^ 18)
      ⟨exampleUser, 10 ^ 18, fin false (3 / 2 ^ 20)⟩
      2861022949219 rfl (by decide) rfl rfl (userCostWei_small exampleUser)]
    simp [settleOnChain, exampleEnv]
  · have h1 : gasCostPOL (10 ^ 18) = fin false 1 := round_of_roundMag false _ 1 roundMag_one
    simp only [fiatSpentUsd, h1, mul_fin]
    exact round_of_roundMag _ _ _ roundMag_small
  · simp [currentPolUsd, truthy]
  · norm_num

/-- C8 (amended): whenever payTechnicianFor computes a reimbursement w for a
snapshot, it submits it to confirmPayment and w is the token amount reimbPolNow
rounded to the nearest multiple of 10^-18 (toFixed(18): the larger magnitude on a
tie), not truncated: reimbPolNow is finite and below 10^21, and w differs from
reimbPolNow * 10^18 by at most half a wei, in either direction. -/
theorem reimbursement_rounded_to_nearest (env : SettlementEnv) (a : ℕ) (store : GasCostStore)
    (s : String) (t : ℤ) (cd : CostData) (w : ℤ)
    (hpay : env.payInput a = some s) (hs : s ≠ "") (hparse : env.parseEther s = some t)
    (hsnap : env.dbGasMap a = some cd) (hw : userCostWei cd env.polPrice = some w) :
    (∃ rest, (payTechnicianFor env a store).1 =
        Effect.fetchPolPrice :: Effect.confirmPayment a t cd.user w :: rest) ∧
      ∃ (neg : Bool) (m : ℚ), reimbPolNow cd env.polPrice = fin neg m ∧ 0 ≤ m ∧ m < 10 ^ 21 ∧
        w = (if (neg && decide (m ≠ 0)) = true then -(⌊m * 10 ^ 18 + 1 / 2⌋₊ : ℤ)
          else (⌊m * 10 ^ 18 + 1 / 2⌋₊ : ℤ)) ∧
        |(w : ℚ) - signed neg m * 10 ^ 18| ≤ 1 / 2 := by
  refine ⟨payTechnicianFor_snapshot_effects env a store s t cd w hpay hs hparse hsnap hw, ?_⟩
  unfold userCostWei at hw
  cases hr : reimbPolNow cd env.polPrice with
  | nan => simp [hr, toFixed18, parseEtherFixed] at hw
  | inf neg => simp [hr, toFixed18, parseEtherFixed] at hw
  | fin neg m =>
    rw [hr] at hw
    have hm : 0 ≤ m := div_fin_nonneg _ _ neg m hr
    obtain ⟨h1, h2, h3⟩ := parseEtherFixed_toFixed18 neg m w hm hw
    exact ⟨neg, m, rfl, hm, h1, h2, h3⟩

/-- Witness for C8 (amended): the snapshot of 1 token at 3 / 2^20 USD with a
fetched price of 1 USD. -/
theorem reimbursement_rounded_to_nearest_witness :
    (∃ rest, (payTechnicianFor
        (exampleEnv (some ⟨exampleUser, 10 ^ 18, fin false (3 / 2 ^ 20)⟩)
          (PriceFetch.price (fin false 1)) true) 0 []).1 =
        Effect.fetchPolPrice :: Effect.confirmPayment 0 (10 ^ 18) exampleUser 2861022949219 ::
          rest) ∧
      ∃ (neg : Bool) (m : ℚ),
        reimbPolNow ⟨exampleUser, 10 ^ 18, fin false (3 / 2 ^ 20)⟩
          (PriceFetch.price (fin false 1)) = fin neg m ∧ 0 ≤ m ∧ m < 10 ^ 21 ∧
        (2861022949219 : ℤ) =
          (if (neg && decide (m ≠ 0)) = true then -(⌊m * 10 ^ 18 + 1 / 2⌋₊ : ℤ)
            else (⌊m * 10 ^ 18 + 1 / 2⌋₊ : ℤ)) ∧
        |((2861022949219 : ℤ) : ℚ) - signed neg m * 10 ^ 18| ≤ 1 / 2 :=
  reimbursement_rounded_to_nearest
    (exampleEnv (some ⟨exampleUser, 10 ^ 18, fin false (3 / 2 ^ 20)⟩)
      (PriceFetch.price (fin false 1)) true) 0 [] "1" (10 ^ 18)
    ⟨exampleUser, 10 ^ 18, fin false (3 / 2 ^ 20)⟩ 2861022949219 rfl (by decide) rfl rfl
    (userCostWei_small exampleUser)

/-- Settlement without a cached snapshot: when dbGasMap holds no entry for the
asset being settled (and the admin entered a valid technician amount),
payTechnicianFor calls confirmPayment with the technician amount, the zero
address as reimbursement address and 0 as reimbursement amount, then alerts; it
issues no price fetch and no snapshot DELETE and leaves the store unchanged. -/
theorem no_snapshot_no_reimbursement (env : SettlementEnv) (a : ℕ) (store : GasCostStore)
    (s : String) (t : ℤ)
    (hpay : env.payInput a = some s) (hs : s ≠ "") (hparse : env.parseEther s = some t)
    (hsnap : env.dbGasMap a = none) :
    (payTechnicianFor env a store).1 =
        [Effect.confirmPayment a t AddressZero 0,
          Effect.alert (if env.confirmPayment a t AddressZero 0 then Alert.paid
            else Alert.error)] ∧
      (∀ a' u c, Effect.deleteGasCosts a' u c ∉ (payTechnicianFor env a store).1) ∧
      (payTechnicianFor env a store).2 = store := by
  have h : payTechnicianFor env a store = settleOnChain env a store t AddressZero 0 none := by
    unfold payTechnicianFor
    simp [hpay, hs, hparse, hsnap]
  rw [h]
  unfold settleOnChain
  by_cases hok : env.confirmPayment a t AddressZero 0 = true
  · simp [hok]
  · simp [hok]

/-- Settlement without a cached snapshot, in the example environment. -/
theorem no_snapshot_no_reimbursement_witness :
    (payTechnicianFor (exampleEnv none PriceFetch.threw true) 0 []).1 =
        [Effect.confirmPayment 0 (10 ^ 18) AddressZero 0,
          Effect.alert (if (exampleEnv none PriceFetch.threw true).confirmPayment 0 (10 ^ 18)
            AddressZero 0 then Alert.paid else Alert.error)] ∧
      (∀ a' u c, Effect.deleteGasCosts a' u c ∉
        (payTechnicianFor (exampleEnv none PriceFetch.threw true) 0 []).1) ∧
      (payTechnicianFor (exampleEnv none PriceFetch.threw true) 0 []).2 = [] :=
  no_snapshot_no_reimbursement (exampleEnv none PriceFetch.threw true) 0 [] "1" (10 ^ 18)
    rfl (by decide) rfl rfl

theorem loadGasCostsFromServer_single (row : GasCostRow) :
    loadGasCostsFromServer (some [row]) row.assetId =
      some ⟨row.user, row.costWei, row.polUsd⟩ := by
  simp [loadGasCostsFromServer]

/-- C9 (the code at the failing input): the admin page is mounted while the
store holds one snapshot for asset 0 (1 token filed at 0.50 USD) and asset 0 is
settled twice, at a live price of 0.25 USD.  The first settlement deletes the
snapshot, so none exists any more when the second one runs; yet the second one
reads the entry still held by dbGasMap and calls confirmPayment with the user of
the deleted snapshot and 2 * 10^18 wei instead of the zero address and 0, and
issues a DELETE again. -/
theorem deleted_snapshot_reimbursed_again :
    (payTechnicianFor
        (mountAdmin (exampleEnv none (PriceFetch.price (fin false (1 / 4))) true)
          (some [⟨0, exampleUser, 10 ^ 18, fin false (1 / 2), 0⟩])) 0
        [⟨0, exampleUser, 10 ^ 18, fin false (1 / 2), 0⟩]).2 = [] ∧
      (payTechnicianFor
        (mountAdmin (exampleEnv none (PriceFetch.price (fin false (1 / 4))) true)
          (some [⟨0, exampleUser, 10 ^ 18, fin false (1 / 2), 0⟩])) 0 []).1 =
        [Effect.fetchPolPrice,
          Effect.confirmPayment 0 (10 ^ 18) exampleUser 2000000000000000000,
          Effect.alert Alert.paid,
          Effect.deleteGasCosts 0 exampleUser (10 ^ 18)] ∧
      adminSession (exampleEnv none (PriceFetch.price (fin false (1 / 4))) true)
          [⟨0, exampleUser, 10 ^ 18, fin false (1 / 2), 0⟩] [0, 0] =
        ([[Effect.fetchPolPrice,
            Effect.confirmPayment 0 (10 ^ 18) exampleUser 2000000000000000000,
            Effect.alert Alert.paid,
            Effect.deleteGasCosts 0 exampleUser (10 ^ 18)],
          [Effect.fetchPolPrice,
            Effect.confirmPayment 0 (10 ^ 18) exampleUser 2000000000000000000,
            Effect.alert Alert.paid,
            Effect.deleteGasCosts 0 exampleUser (10 ^ 18)]], []) := by
  have hpay : ∀ store : GasCostStore,
      payTechnicianFor
        (mountAdmin (exampleEnv none (PriceFetch.price (fin false (1 / 4))) true)
          (some [⟨0, exampleUser, 10 ^ 18, fin false (1 / 2), 0⟩])) 0 store =
      ([Effect.fetchPolPrice,
          Effect.confirmPayment 0 (10 ^ 18) exampleUser 2000000000000000000,
          Effect.alert Alert.paid,
          Effect.deleteGasCosts 0 exampleUser (10 ^ 18)],
        (deleteGasCosts store 0 exampleUser (10 ^ 18)).1) := by
    intro store
    rw [payTechnicianFor_snapshot _ 0 store "1" (10 ^ 18)
      ⟨exampleUser, 10 ^ 18, fin false (1 / 2)⟩ 2000000000000000000 rfl (by decide) rfl
      (loadGasCostsFromServer_single ⟨0, exampleUser, 10 ^ 18, fin false (1 / 2), 0⟩)
      (userCostWei_example exampleUser)]
    simp [settleOnChain, mountAdmin, exampleEnv]
  have hd1 : (deleteGasCosts [⟨0, exampleUser, 10 ^ 18, fin false (1 / 2), 0⟩] 0 exampleUser
      (10 ^ 18)).1 = [] := by
    simp [deleteGasCosts, exampleUser]
  have hd2 : (deleteGasCosts [] 0 exampleUser (10 ^ 18)).1 = [] := by
    unfold deleteGasCosts
    split_ifs <;> rfl
  refine ⟨?_, ?_, ?_⟩
  · rw [hpay, hd1]
  · rw [hpay]
  · simp only [adminSession, settleAll, hpay, hd1, hd2]

theorem settleOnChain_rejected (env : SettlementEnv) (a : ℕ) (store : GasCostStore) (t : ℤ)
    (u : String) (w : ℤ) (cd : Option CostData) (h : env.confirmPayment a t u w = false) :
    settleOnChain env a store t u w cd =
      ([Effect.confirmPayment a t u w, Effect.alert Alert.error], store) := by
  unfold settleOnChain
  simp [h]

theorem settleOnChain_delete_index (env : SettlementEnv) (a : ℕ) (store : GasCostStore) (t : ℤ)
    (u : String) (w : ℤ) (cd : Option CostData) (i a' : ℕ) (u' : String) (c : ℕ)
    (h : (settleOnChain env a store t u w cd).1[i]? = some (Effect.deleteGasCosts a' u' c)) :
    0 < i ∧ env.confirmPayment a t u w = true := by
  by_cases hok : env.confirmPayment a t u w = true
  · refine ⟨?_, hok⟩
    rcases Nat.eq_zero_or_pos i with h0 | h0
    · subst h0
      obtain ⟨rest, hrest⟩ := settleOnChain_effects env a store t u w cd
      rw [hrest] at h
      simp at h
    · exact h0
  · rw [settleOnChain_rejected env a store t u w cd (by simpa using hok)] at h
    rcases i with _ | _ | i <;> simp at h

/-- C10: payTechnicianFor issues the DELETE of the cost snapshot only after a
confirmPayment call that the ledger accepted, and if the ledger rejects the
confirmPayment call issued (or none is issued) no DELETE is issued and the cost
snapshot store is left unchanged. -/
theorem delete_only_after_accepted_payment (env : SettlementEnv) (a : ℕ)
    (store : GasCostStore) :
    (∀ (i a' : ℕ) (u : String) (c : ℕ),
        (payTechnicianFor env a store).1[i]? = some (Effect.deleteGasCosts a' u c) →
        ∃ (j : ℕ) (t : ℤ) (usr : String) (w : ℤ), j < i ∧
          (payTechnicianFor env a store).1[j]? = some (Effect.confirmPayment a t usr w) ∧
          env.confirmPayment a t usr w = true) ∧
      ((∀ (t : ℤ) (usr : String) (w : ℤ),
          Effect.confirmPayment a t usr w ∈ (payTechnicianFor env a store).1 →
          env.confirmPayment a t usr w = false) →
        (∀ (a' : ℕ) (u : String) (c : ℕ),
          Effect.deleteGasCosts a' u c ∉ (payTechnicianFor env a store).1) ∧
        (payTechnicianFor env a store).2 = store) := by
  unfold payTechnicianFor
  cases h1 : env.payInput a with
  | none =>
    refine ⟨?_, fun _ => ⟨by simp, by simp⟩⟩
    intro i a' u c h
    rcases i with _ | i <;> simp at h
  | some s =>
    by_cases hs : s = ""
    · simp only [hs, if_true]
      refine ⟨?_, fun _ => ⟨by simp, by simp⟩⟩
      intro i a' u c h
      rcases i with _ | i <;> simp at h
    · simp only [hs, if_false]
      cases h2 : env.parseEther s with
      | none =>
        refine ⟨?_, fun _ => ⟨by simp, by simp⟩⟩
        intro i a' u c h
        rcases i with _ | i <;> simp at h
      | some t =>
        cases h3 : env.dbGasMap a with
        | none =>
          simp only
          obtain ⟨rest, hrest⟩ := settleOnChain_effects env a store t AddressZero 0 none
          constructor
          · intro i a' u c h
            obtain ⟨hi, hok⟩ := settleOnChain_delete_index env a store t AddressZero 0 none
              i a' u c h
            exact ⟨0, t, AddressZero, 0, hi, by simp [hrest], hok⟩
          · intro hrej
            have hr := hrej t AddressZero 0 (by rw [hrest]; simp)
            rw [settleOnChain_rejected env a store t AddressZero 0 none hr]
            simp
        | some cd =>
          simp only
          cases h4 : userCostWei cd env.polPrice with
          | none =>
            refine ⟨?_, fun _ => ⟨by simp, by simp⟩⟩
            intro i a' u c h
            rcases i with _ | _ | i <;> simp at h
          | some w =>
            simp only
            obtain ⟨rest, hrest⟩ := settleOnChain_effects env a store t cd.user w (some cd)
            constructor
            · intro i a' u c h
              rcases i with _ | i
              · simp at h
              · simp only [List.getElem?_cons_succ] at h
                obtain ⟨hi, hok⟩ := settleOnChain_delete_index env a store t cd.user w
                  (some cd) i a' u c h
                exact ⟨1, t, cd.user, w, by omega, by simp [hrest], hok⟩
            · intro hrej
              have hr := hrej t cd.user w (by rw [hrest]; simp)
              rw [settleOnChain_rejected env a store t cd.user w (some cd) hr]
              simp

/-- Witness for C10: a snapshot exists and the ledger rejects confirmPayment (for
example because the record is already paid); no DELETE is issued and the store,
which holds the snapshot row, is unchanged. -/
theorem delete_only_after_accepted_payment_witness :
    (∀ (a' : ℕ) (u : String) (c : ℕ),
        Effect.deleteGasCosts a' u c ∉
          (payTechnicianFor
            (exampleEnv (some ⟨exampleUser, 10 ^ 18, fin false (1 / 2)⟩)
              (PriceFetch.price (fin false (1 / 4))) false) 0
            [⟨0, exampleUser, 10 ^ 18, fin false (1 / 2), 0⟩]).1) ∧
      (payTechnicianFor
          (exampleEnv (some ⟨exampleUser, 10 ^ 18, fin false (1 / 2)⟩)
            (PriceFetch.price (fin false (1 / 4))) false) 0
          [⟨0, exampleUser, 10 ^ 18, fin false (1 / 2), 0⟩]).2 =
        [⟨0, exampleUser, 10 ^ 18, fin false (1 / 2), 0⟩] :=
  (delete_only_after_accepted_payment
    (exampleEnv (some ⟨exampleUser, 10 ^ 18, fin false (1 / 2)⟩)
      (PriceFetch.price (fin false (1 / 4))) false) 0
    [⟨0, exampleUser, 10 ^ 18, fin false (1 / 2), 0⟩]).2 (fun _ _ _ _ => rfl)

/-! ## Claims about a rejected settlement -/

theorem settleOnChain_mem_confirm (env : SettlementEnv) (a : ℕ) (store : GasCostStore)
    (t t' : ℤ) (u u' : String) (w w' : ℤ) (cd : Option CostData)
    (h : Effect.confirmPayment a t u w ∈ (settleOnChain env a store t' u' w' cd).1) :
    t = t' ∧ u = u' ∧ w = w' := by
  unfold settleOnChain at h
  cases cd with
  | none =>
    simp only at h
    split_ifs at h <;> simpa using h
  | some c =>
    simp only at h
    split_ifs at h <;> simpa using h

/-- C11 (as stated, refuted): when the ledger rejects confirmPayment (for
instance because the record is already paid), payTechnicianFor ends with the
error alert and never shows the success alert: the rejection is reported to the
admin as an error, not treated as a success. -/
theorem rejected_payment_is_an_error :
    (payTechnicianFor (exampleEnv none PriceFetch.threw false) 0 []).1 =
      [Effect.confirmPayment 0 (10 ^ 18) AddressZero 0, Effect.alert Alert.error] := by
  simp [payTechnicianFor, settleOnChain, exampleEnv]

/-- C11 (amended): whenever the ledger rejects the confirmPayment call that
payTechnicianFor issues (an already paid record included), the last effect is the
error alert carrying the rejection, no success alert is shown, no DELETE is
issued and the cost snapshot store is unchanged. -/
theorem rejected_payment_alerts_error (env : SettlementEnv) (a : ℕ) (store : GasCostStore)
    (t : ℤ) (u : String) (w : ℤ)
    (hmem : Effect.confirmPayment a t u w ∈ (payTechnicianFor env a store).1)
    (hrej : env.confirmPayment a t u w = false) :
    (payTechnicianFor env a store).1.getLast? = some (Effect.alert Alert.error) ∧
      Effect.alert Alert.paid ∉ (payTechnicianFor env a store).1 ∧
      (∀ (a' : ℕ) (u' : String) (c : ℕ),
        Effect.deleteGasCosts a' u' c ∉ (payTechnicianFor env a store).1) ∧
      (payTechnicianFor env a store).2 = store := by
  unfold payTechnicianFor at hmem ⊢
  cases h1 : env.payInput a with
  | none => simp [h1] at hmem
  | some s =>
    simp only [h1] at hmem ⊢
    by_cases hs : s = ""
    · simp [hs] at hmem
    · simp only [hs, if_false] at hmem ⊢
      cases h2 : env.parseEther s with
      | none => simp [h2] at hmem
      | some t' =>
        simp only [h2] at hmem ⊢
        cases h3 : env.dbGasMap a with
        | none =>
          simp only [h3] at hmem ⊢
          obtain ⟨e1, e2, e3⟩ := settleOnChain_mem_confirm env a store t t' u AddressZero w 0
            none hmem
          subst e1 e2 e3
          rw [settleOnChain_rejected env a store t AddressZero 0 none hrej]
          simp
        | some cd =>
          simp only [h3] at hmem ⊢
          cases h4 : userCostWei cd env.polPrice with
          | none => simp [h4] at hmem
          | some w' =>
            simp only [h4, List.mem_cons] at hmem ⊢
            rcases hmem with hmem | hmem
            · exact absurd hmem (by simp)
            · obtain ⟨e1, e2, e3⟩ := settleOnChain_mem_confirm env a store t t' u cd.user w w'
                (some cd) hmem
              subst e1 e2 e3
              rw [settleOnChain_rejected env a store t cd.user w (some cd) hrej]
              simp

/-- Witness for C11 (amended): no snapshot, the ledger rejects the call. -/
theorem rejected_payment_alerts_error_witness :
    (payTechnicianFor (exampleEnv none PriceFetch.threw false) 0 []).1.getLast? =
        some (Effect.alert Alert.error) ∧
      Effect.alert Alert.paid ∉ (payTechnicianFor (exampleEnv none PriceFetch.threw false) 0 []).1 ∧
      (∀ (a' : ℕ) (u' : String) (c : ℕ),
        Effect.deleteGasCosts a' u' c ∉
          (payTechnicianFor (exampleEnv none PriceFetch.threw false) 0 []).1) ∧
      (payTechnicianFor (exampleEnv none PriceFetch.threw false) 0 []).2 = [] :=
  rejected_payment_alerts_error (exampleEnv none PriceFetch.threw false) 0 [] (10 ^ 18)
    AddressZero 0 (by simp [payTechnicianFor, settleOnChain, exampleEnv]) rfl

/-! ## Claims about the cost snapshot store -/

theorem deleteGasCosts_store (store : GasCostStore) (a : ℕ) (u : String) (c : ℕ) (hu : u ≠ "") :
    (deleteGasCosts store a u c).1 = store.filter (fun r =>
      !(decide (r.assetId = a) && decide (r.user = u) && decide (r.costWei = c))) := by
  unfold deleteGasCosts
  simp only [if_neg hu]
  split_ifs with h
  · have hle := List.length_filter_le (fun r : GasCostRow =>
      !(decide (r.assetId = a) && decide (r.user = u) && decide (r.costWei = c))) store
    have heq : (store.filter (fun r : GasCostRow =>
        !(decide (r.assetId = a) && decide (r.user = u) && decide (r.costWei = c)))).length =
        store.length := by omega
    exact (List.filter_eq_self.2 (List.filter_length_eq_length.1 heq)).symm
  · rfl

/-- C12: a DELETE /gasCosts request carrying (assetId, user, costWei) removes
from the store exactly the rows whose assetId, user and costWei all equal the
values of the request; when no row matches all three (for instance a row with
that assetId but another user or another costWei, a snapshot overwritten by a
newer fault) nothing is removed, the store is unchanged and the answer is
success:false; when a row matches the answer is success:true. -/
theorem delete_matches_all_three_fields (store : GasCostStore) (a : ℕ) (u : String) (c : ℕ)
    (hu : u ≠ "") :
    (∀ r, r ∈ (deleteGasCosts store a u c).1 ↔
        r ∈ store ∧ ¬ (r.assetId = a ∧ r.user = u ∧ r.costWei = c)) ∧
      ((∀ r ∈ store, r.assetId = a → r.user ≠ u ∨ r.costWei ≠ c) →
        deleteGasCosts store a u c = (store, DeleteResponse.notFound)) ∧
      ((∃ r ∈ store, r.assetId = a ∧ r.user = u ∧ r.costWei = c) →
        (deleteGasCosts store a u c).2 = DeleteResponse.success) := by
  refine ⟨?_, ?_, ?_⟩
  · intro r
    rw [deleteGasCosts_store store a u c hu, List.mem_filter]
    by_cases h1 : r.assetId = a <;> by_cases h2 : r.user = u <;>
      by_cases h3 : r.costWei = c <;> simp [h1, h2, h3]
  · intro hno
    have hall : ∀ r ∈ store, (!(decide (r.assetId = a) && decide (r.user = u) &&
        decide (r.costWei = c))) = true := by
      intro r hr
      by_cases ha : r.assetId = a
      · rcases hno r hr ha with h | h <;> simp [h]
      · simp [ha]
    unfold deleteGasCosts
    simp only [if_neg hu]
    rw [List.filter_eq_self.2 hall]
    simp
  · rintro ⟨r, hr, h1, h2, h3⟩
    have hlt : (store.filter (fun r : GasCostRow =>
        !(decide (r.assetId = a) && decide (r.user = u) && decide (r.costWei = c)))).length <
        store.length := by
      rw [List.length_filter_lt_length_iff_exists]
      exact ⟨r, hr, by simp [h1, h2, h3]⟩
    unfold deleteGasCosts
    simp only [if_neg hu]
    rw [if_neg (by omega)]

/-- Witness for C12: the store holds the snapshot of asset 0 with costWei 2000
(a newer fault overwrote the one with costWei 1000); the DELETE for costWei 1000
removes nothing and answers success:false. -/
theorem delete_matches_all_three_fields_witness :
    deleteGasCosts [⟨0, exampleUser, 2000, JSNumber.fin false (1 / 2), 7⟩] 0 exampleUser 1000 =
      ([⟨0, exampleUser, 2000, JSNumber.fin false (1 / 2), 7⟩], DeleteResponse.notFound) :=
  (delete_matches_all_three_fields [⟨0, exampleUser, 2000, JSNumber.fin false (1 / 2), 7⟩]
    0 exampleUser 1000 (by decide)).2.1
    (by
      intro r hr _
      simp only [List.mem_singleton] at hr
      subst hr
      exact Or.inr (by decide))

theorem postGasCosts_valid (fetched : Option JSNumber) (ts : ℕ) (store : GasCostStore)
    (body : PostBody) (a c : ℕ) (ha : body.assetId = some a) (hc : body.costWei = some c)
    (hu : body.user ≠ "") :
    postGasCosts fetched ts store body =
      (store.filter (fun r => !decide (r.assetId = a)) ++
        [⟨a, body.user, c, priceToStore fetched body.polUsd, ts⟩], PostResponse.success) := by
  unfold postGasCosts
  simp [ha, hc, hu]

theorem postGasCosts_nodup (fetched : Option JSNumber) (ts : ℕ) (store : GasCostStore)
    (body : PostBody) (h : (store.map GasCostRow.assetId).Nodup) :
    ((postGasCosts fetched ts store body).1.map GasCostRow.assetId).Nodup := by
  unfold postGasCosts
  split
  · rename_i a c _ _
    split_ifs
    · exact h
    · simp only [List.map_append, List.map_cons, List.map_nil]
      rw [List.nodup_append]
      refine ⟨?_, by simp, ?_⟩
      · exact List.Nodup.sublist (List.Sublist.map _ (List.filter_sublist store)) h
      · intro x hx hx2
        simp only [List.mem_singleton] at hx2
        subst hx2
        simp only [List.mem_map, List.mem_filter, Bool.not_eq_true', decide_eq_false_iff_not] at hx
        obtain ⟨r, ⟨_, h1⟩, h2⟩ := hx
        exact h1 h2
  · exact h

theorem deleteGasCosts_nodup (store : GasCostStore) (a : ℕ) (u : String) (c : ℕ)
    (h : (store.map GasCostRow.assetId).Nodup) :
    ((deleteGasCosts store a u c).1.map GasCostRow.assetId).Nodup := by
  unfold deleteGasCosts
  by_cases hu : u = ""
  · simp only [if_pos hu]
    exact h
  · simp only [if_neg hu]
    split_ifs
    · exact h
    · exact List.Nodup.sublist (List.Sublist.map _ (List.filter_sublist store)) h

theorem serveRequests_nodup (reqs : List GasRequest) (store : GasCostStore)
    (h : (store.map GasCostRow.assetId).Nodup) :
    ((serveRequests store reqs).map GasCostRow.assetId).Nodup := by
  induction reqs generalizing store with
  | nil => exact h
  | cons q rest ih =>
    unfold serveRequests
    rw [List.foldl_cons]
    apply ih
    cases q with
    | post fetched ts body => exact postGasCosts_nodup fetched ts store body h
    | delete a u c => exact deleteGasCosts_nodup store a u c h

theorem filter_asset_length_one (store : GasCostStore) (a : ℕ)
    (h : (store.map GasCostRow.assetId).Nodup) (hex : ∃ r ∈ store, r.assetId = a) :
    (store.filter (fun r => !decide (r.assetId = a))).length + 1 = store.length := by
  induction store with
  | nil =>
    obtain ⟨r, hr, _⟩ := hex
    simp at hr
  | cons x xs ih =>
    rw [List.map_cons, List.nodup_cons] at h
    by_cases hx : x.assetId = a
    · have hall : ∀ r ∈ xs, (!decide (r.assetId = a)) = true := by
        intro r hr
        have : r.assetId ≠ a := by
          intro hra
          exact h.1 (List.mem_map.2 ⟨r, hr, by rw [hra, hx]⟩)
        simp [this]
      simp [List.filter_cons, hx, List.filter_eq_self.2 hall]
    · have hex2 : ∃ r ∈ xs, r.assetId = a := by
        obtain ⟨r, hr, hra⟩ := hex
        rcases List.mem_cons.1 hr with h1 | h1
        · subst h1
          exact absurd hra hx
        · exact ⟨r, h1, hra⟩
      have := ih h.2 hex2
      simp [List.filter_cons, hx]
      omega

/-- C13: starting from a store with at most one row per assetId (the empty
table in particular), after any sequence of POST /gasCosts and DELETE /gasCosts
requests the store holds at most one row per assetId; and a valid POST for an
assetId leaves exactly one row with that assetId, made of the user, costWei,
polUsd and ts of the request, leaves the rows of the other assets as they were,
and does not change the number of rows when the assetId already had a row. -/
theorem one_snapshot_per_asset (store : GasCostStore) (reqs : List GasRequest)
    (h : (store.map GasCostRow.assetId).Nodup) :
    ((serveRequests store reqs).map GasCostRow.assetId).Nodup ∧
      ∀ (fetched : Option JSNumber) (ts : ℕ) (body : PostBody) (a c : ℕ),
        body.assetId = some a → body.costWei = some c → body.user ≠ "" →
        (postGasCosts fetched ts store body).1.filter (fun r => decide (r.assetId = a)) =
            [⟨a, body.user, c, priceToStore fetched body.polUsd, ts⟩] ∧
          (postGasCosts fetched ts store body).1.filter (fun r => !decide (r.assetId = a)) =
            store.filter (fun r => !decide (r.assetId = a)) ∧
          ((∃ r ∈ store, r.assetId = a) →
            (postGasCosts fetched ts store body).1.length = store.length) := by
  refine ⟨serveRequests_nodup reqs store h, ?_⟩
  intro fetched ts body a c ha hc hu
  rw [postGasCosts_valid fetched ts store body a c ha hc hu]
  refine ⟨?_, ?_, ?_⟩
  · simp [List.filter_append, List.filter_filter]
  · simp [List.filter_append, List.filter_filter]
  · intro hex
    have := filter_asset_length_one store a h hex
    simp only [List.length_append, List.length_singleton]
    exact this

/-- Witness for C13: the empty table, a POST for asset 0, a second POST for
asset 0 and a DELETE. -/
theorem one_snapshot_per_asset_witness :
    ((serveRequests []
        [GasRequest.post none 5 ⟨some 0, exampleUser, some 1000, none⟩,
          GasRequest.post none 9 ⟨some 0, exampleUser, some 2000, none⟩,
          GasRequest.delete 0 exampleUser 1000]).map GasCostRow.assetId).Nodup :=
  (one_snapshot_per_asset []
    [GasRequest.post none 5 ⟨some 0, exampleUser, some 1000, none⟩,
      GasRequest.post none 9 ⟨some 0, exampleUser, some 2000, none⟩,
      GasRequest.delete 0 exampleUser 1000] List.nodup_nil).1

/-! ## Claims about the readings and the integrity hashes -/

theorem getLastNReadings_eq_drop (log : ReadingLog) (a n : ℕ) :
    getLastNReadings log a n =
      ((log.filter (fun r => decide (r.assetId = a))).drop
        ((log.filter (fun r => decide (r.assetId = a))).length - n)).map SensorReading.row := by
  unfold getLastNReadings
  rw [List.take_reverse, ← List.map_reverse, List.reverse_reverse]

theorem getLastNReadings_length (log : ReadingLog) (a n : ℕ) :
    (getLastNReadings log a n).length =
      min n (log.filter (fun r => decide (r.assetId = a))).length := by
  rw [getLastNReadings_eq_drop, List.length_map, List.length_drop]
  omega

theorem getLastNReadings_of_append (log : ReadingLog) (a : ℕ) (older : List SensorReading)
    (r1 r2 r3 : SensorReading)
    (hlast : log.filter (fun r => decide (r.assetId = a)) = older ++ [r1, r2, r3]) :
    getLastNReadings log a 3 = [r1.row, r2.row, r3.row] := by
  rw [getLastNReadings_eq_drop, hlast]
  simp

/-- C16: for every reading log, asset and n, getLastNReadings(assetId, n)
returns the last min(n, k) readings of that asset in insertion order (k being
the number of readings stored for it), oldest first, each returned row holding
the temperature, the vibration and the timestamp of the stored reading of that
asset at that position, and never a reading of another asset; so after a further
storeReading for the asset the newest row is the reading just stored, and a
storeReading for another asset changes nothing. -/
theorem getLastNReadings_most_recent (log : ReadingLog) (a n : ℕ) :
    getLastNReadings log a n =
        ((log.filter (fun r => decide (r.assetId = a))).drop
          ((log.filter (fun r => decide (r.assetId = a))).length - n)).map
            (fun r => (⟨r.temperature, r.vibration, r.timestamp⟩ : ReadingRow)) ∧
      (getLastNReadings log a n).length =
        min n (log.filter (fun r => decide (r.assetId = a))).length ∧
      (∀ row ∈ getLastNReadings log a n, ∃ r ∈ log, r.assetId = a ∧
        row.temperature = r.temperature ∧ row.vibration = r.vibration ∧
          row.timestamp = r.timestamp) ∧
      (∀ (now : String) (t v : JSNumber),
        getLastNReadings (storeReading log a now t v) a (n + 1) =
          getLastNReadings log a n ++ [⟨t, v, now⟩]) ∧
      (∀ (b : ℕ) (now : String) (t v : JSNumber), b ≠ a →
        getLastNReadings (storeReading log b now t v) a n = getLastNReadings log a n) := by
  have h1 := getLastNReadings_eq_drop log a n
  refine ⟨h1, getLastNReadings_length log a n, ?_, ?_, ?_⟩
  · intro row hrow
    rw [h1, List.mem_map] at hrow
    obtain ⟨r, hr, hrr⟩ := hrow
    have hr2 := List.mem_of_mem_drop hr
    rw [List.mem_filter] at hr2
    subst hrr
    exact ⟨r, hr2.1, by simpa using hr2.2, rfl, rfl, rfl⟩
  · intro now t v
    unfold getLastNReadings storeReading
    simp [List.filter_append, List.take_succ_cons, SensorReading.row]
  · intro b now t v hb
    unfold getLastNReadings storeReading
    simp [List.filter_append, hb]

/-- Witness for C16: the three latest readings of asset 0 in the example log. -/
theorem getLastNReadings_most_recent_witness :
    getLastNReadings exampleLog 0 3 =
      [⟨JSNumber.ofRat 62, JSNumber.ofRat 3, "t2"⟩, ⟨JSNumber.ofRat 63, JSNumber.ofRat 4, "t3"⟩,
        ⟨JSNumber.ofRat 64, JSNumber.ofRat 5, "t4"⟩] :=
  (getLastNReadings_most_recent exampleLog 0 3).1.trans (by simp [exampleLog])

theorem storeHashesFor_assetId (env : HashEnv) (log : ReadingLog) (b : ℕ) (e : HashEvent)
    (he : e ∈ storeHashesFor env log b) : e.assetId = b := by
  unfold storeHashesFor at he
  simp only at he
  split_ifs at he <;> simp at he <;>
    first
      | (rcases he with h | h | h <;> subst h <;> rfl)
      | (rcases he with h | h <;> subst h <;> rfl)
      | (subst he; rfl)

theorem mem_storeHashes (env : HashEnv) (log : ReadingLog) (e : HashEvent)
    (he : e ∈ storeHashes env log) : e ∈ storeHashesFor env log e.assetId := by
  unfold storeHashes at he
  rw [List.mem_flatMap] at he
  obtain ⟨b, _, hb⟩ := he
  rw [storeHashesFor_assetId env log b e hb]
  exact hb

/-- C14: for an asset with fewer than 3 stored readings, a storeHashes cycle
computes no digest and issues no storePredictiveHash call for that asset; when
the database read succeeds it logs no error for it, and for a tracked asset it
only logs that there are not enough readings. -/
theorem too_few_readings_skipped (env : HashEnv) (log : ReadingLog) (a : ℕ)
    (hfew : (log.filter (fun r => decide (r.assetId = a))).length < 3) :
    (∀ h, HashEvent.digest a h ∉ storeHashes env log) ∧
      (∀ h, HashEvent.storePredictiveHash a h ∉ storeHashes env log) ∧
      (env.dbReadOk a = true → HashEvent.error a ∉ storeHashes env log) ∧
      (env.dbReadOk a = true → storeHashesFor env log a = [HashEvent.notEnough a]) := by
  have hlen : (getLastNReadings log a 3).length < 3 := by
    rw [getLastNReadings_length]
    omega
  have hfor : storeHashesFor env log a =
      if env.dbReadOk a then [HashEvent.notEnough a] else [HashEvent.error a] := by
    unfold storeHashesFor
    simp [hlen]
  refine ⟨?_, ?_, ?_, ?_⟩
  · intro h hmem
    have := mem_storeHashes env log _ hmem
    simp only [HashEvent.assetId, hfor] at this
    split_ifs at this <;> simp at this
  · intro h hmem
    have := mem_storeHashes env log _ hmem
    simp only [HashEvent.assetId, hfor] at this
    split_ifs at this <;> simp at this
  · intro hdb hmem
    have := mem_storeHashes env log _ hmem
    simp [HashEvent.assetId, hfor, hdb] at this
  · intro hdb
    simp [hfor, hdb]

/-- Witness for C14: asset 1 has a single stored reading. -/
theorem too_few_readings_skipped_witness :
    (∀ h, HashEvent.digest 1 h ∉ storeHashes exampleHashEnv exampleLog) ∧
      (∀ h, HashEvent.storePredictiveHash 1 h ∉ storeHashes exampleHashEnv exampleLog) ∧
      (exampleHashEnv.dbReadOk 1 = true →
        HashEvent.error 1 ∉ storeHashes exampleHashEnv exampleLog) ∧
      (exampleHashEnv.dbReadOk 1 = true →
        storeHashesFor exampleHashEnv exampleLog 1 = [HashEvent.notEnough 1]) :=
  too_few_readings_skipped exampleHashEnv exampleLog 1 (by simp [exampleLog])

theorem count_flatMap_of_nodup (f : ℕ → List HashEvent) (e : HashEvent) (a : ℕ)
    (hf : ∀ b, e ∈ f b → b = a) (ids : List ℕ) (hn : ids.Nodup) (ha : a ∈ ids) :
    (ids.flatMap f).count e = (f a).count e := by
  induction ids with
  | nil => simp at ha
  | cons b rest ih =>
    rw [List.nodup_cons] at hn
    rw [List.flatMap_cons, List.count_append]
    by_cases hb : b = a
    · subst hb
      have hrest : (rest.flatMap f).count e = 0 := by
        rw [List.count_eq_zero]
        intro hmem
        rw [List.mem_flatMap] at hmem
        obtain ⟨c, hc, hec⟩ := hmem
        have := hf c hec
        subst this
        exact hn.1 hc
      omega
    · have h0 : (f b).count e = 0 := by
        rw [List.count_eq_zero]
        intro hmem
        exact hb (hf b hmem)
      have ha2 : a ∈ rest := by
        rcases List.mem_cons.1 ha with h | h
        · exact absurd h.symm hb
        · exact h
      rw [h0, ih hn.2 ha2]
      omega

theorem ASSET_IDS_nodup : ASSET_IDS.Nodup := by
  unfold ASSET_IDS
  decide

/-- C15: for a tracked asset whose database read succeeds and whose stored
readings end with r1, r2, r3 (its 3 most recent readings, oldest first), a
storeHashes cycle issues exactly one storePredictiveHash call for the asset, and
its digest h is the hex SHA-256 digest of the JSON text of the array of the 3
readings in that order, each written as an object with the temperature, the
vibration and the timestamp of the reading under the keys temperature,
vibration, timestamp in that order; a cycle over any other log whose 3 most
recent readings of the asset hold the same temperatures, vibrations and
timestamps submits the same h. -/
theorem hash_of_three_latest (env : HashEnv) (log : ReadingLog) (a : ℕ)
    (older : List SensorReading) (r1 r2 r3 : SensorReading) (ha : a ∈ ASSET_IDS)
    (hdb : env.dbReadOk a = true)
    (hlast : log.filter (fun r => decide (r.assetId = a)) = older ++ [r1, r2, r3]) :
    getLastNReadings log a 3 =
        [⟨r1.temperature, r1.vibration, r1.timestamp⟩,
          ⟨r2.temperature, r2.vibration, r2.timestamp⟩,
          ⟨r3.temperature, r3.vibration, r3.timestamp⟩] ∧
      (storeHashes env log).count (HashEvent.storePredictiveHash a (env.sha256Hex
        ("[" ++ ("\x7b\"temperature\":" ++ env.numberToJson r1.temperature ++
            ",\"vibration\":" ++ env.numberToJson r1.vibration ++
            ",\"timestamp\":" ++ env.stringToJson r1.timestamp ++ "\x7d") ++ "," ++
          ("\x7b\"temperature\":" ++ env.numberToJson r2.temperature ++
            ",\"vibration\":" ++ env.numberToJson r2.vibration ++
            ",\"timestamp\":" ++ env.stringToJson r2.timestamp ++ "\x7d") ++ "," ++
          ("\x7b\"temperature\":" ++ env.numberToJson r3.temperature ++
            ",\"vibration\":" ++ env.numberToJson r3.vibration ++
            ",\"timestamp\":" ++ env.stringToJson r3.timestamp ++ "\x7d") ++ "]"))) = 1 ∧
      (∀ h, HashEvent.storePredictiveHash a h ∈ storeHashes env log →
        h = env.sha256Hex
          ("[" ++ ("\x7b\"temperature\":" ++ env.numberToJson r1.temperature ++
            ",\"vibration\":" ++ env.numberToJson r1.vibration ++
            ",\"timestamp\":" ++ env.stringToJson r1.timestamp ++ "\x7d") ++ "," ++
          ("\x7b\"temperature\":" ++ env.numberToJson r2.temperature ++
            ",\"vibration\":" ++ env.numberToJson r2.vibration ++
            ",\"timestamp\":" ++ env.stringToJson r2.timestamp ++ "\x7d") ++ "," ++
          ("\x7b\"temperature\":" ++ env.numberToJson r3.temperature ++
            ",\"vibration\":" ++ env.numberToJson r3.vibration ++
            ",\"timestamp\":" ++ env.stringToJson r3.timestamp ++ "\x7d") ++ "]")) ∧
      (∀ (log2 : ReadingLog) (older2 : List SensorReading) (s1 s2 s3 : SensorReading),
        log2.filter (fun r => decide (r.assetId = a)) = older2 ++ [s1, s2, s3] →
        s1.temperature = r1.temperature → s1.vibration = r1.vibration →
        s1.timestamp = r1.timestamp →
        s2.temperature = r2.temperature → s2.vibration = r2.vibration →
        s2.timestamp = r2.timestamp →
        s3.temperature = r3.temperature → s3.vibration = r3.vibration →
        s3.timestamp = r3.timestamp →
        ∀ h, HashEvent.storePredictiveHash a h ∈ storeHashes env log2 ↔
          HashEvent.storePredictiveHash a h ∈ storeHashes env log) := by
  have hjson : ∀ x1 x2 x3 : SensorReading, rowsToJson env [x1.row, x2.row, x3.row] =
      ("[" ++ ("\x7b\"temperature\":" ++ env.numberToJson x1.temperature ++
            ",\"vibration\":" ++ env.numberToJson x1.vibration ++
            ",\"timestamp\":" ++ env.stringToJson x1.timestamp ++ "\x7d") ++ "," ++
          ("\x7b\"temperature\":" ++ env.numberToJson x2.temperature ++
            ",\"vibration\":" ++ env.numberToJson x2.vibration ++
            ",\"timestamp\":" ++ env.stringToJson x2.timestamp ++ "\x7d") ++ "," ++
          ("\x7b\"temperature\":" ++ env.numberToJson x3.temperature ++
            ",\"vibration\":" ++ env.numberToJson x3.vibration ++
            ",\"timestamp\":" ++ env.stringToJson x3.timestamp ++ "\x7d") ++ "]") := by
    intro x1 x2 x3
    simp [rowsToJson, rowToJson, SensorReading.row, String.intercalate,
      String.intercalate.go, String.append_assoc]
  have hfor : ∀ (lg : ReadingLog) (old : List SensorReading) (x1 x2 x3 : SensorReading),
      lg.filter (fun r => decide (r.assetId = a)) = old ++ [x1, x2, x3] →
      storeHashesFor env lg a =
        if env.storeHashOk a (env.sha256Hex (rowsToJson env [x1.row, x2.row, x3.row])) then
          [HashEvent.digest a (env.sha256Hex (rowsToJson env [x1.row, x2.row, x3.row])),
            HashEvent.storePredictiveHash a
              (env.sha256Hex (rowsToJson env [x1.row, x2.row, x3.row]))]
        else
          [HashEvent.digest a (env.sha256Hex (rowsToJson env [x1.row, x2.row, x3.row])),
            HashEvent.storePredictiveHash a
              (env.sha256Hex (rowsToJson env [x1.row, x2.row, x3.row])),
            HashEvent.error a] := by
    intro lg old x1 x2 x3 hl
    unfold storeHashesFor
    simp [hdb, getLastNReadings_of_append lg a old x1 x2 x3 hl]
  have hmemfor : ∀ (lg : ReadingLog) (old : List SensorReading) (x1 x2 x3 : SensorReading)
      (h : String), lg.filter (fun r => decide (r.assetId = a)) = old ++ [x1, x2, x3] →
      (HashEvent.storePredictiveHash a h ∈ storeHashes env lg ↔
        h = env.sha256Hex (rowsToJson env [x1.row, x2.row, x3.row])) := by
    intro lg old x1 x2 x3 h hl
    constructor
    · intro hmem
      have := mem_storeHashes env lg _ hmem
      simp only [HashEvent.assetId] at this
      rw [hfor lg old x1 x2 x3 hl] at this
      split_ifs at this <;> simpa using this
    · intro hh
      subst hh
      unfold storeHashes
      rw [List.mem_flatMap]
      refine ⟨a, ha, ?_⟩
      rw [hfor lg old x1 x2 x3 hl]
      split_ifs <;> simp
  refine ⟨?_, ?_, ?_, ?_⟩
  · rw [getLastNReadings_of_append log a older r1 r2 r3 hlast]
    rfl
  · rw [← hjson r1 r2 r3]
    unfold storeHashes
    rw [count_flatMap_of_nodup (storeHashesFor env log) _ a
      (fun b hb => by
        have := storeHashesFor_assetId env log b _ hb
        simpa [HashEvent.assetId] using this.symm) ASSET_IDS ASSET_IDS_nodup ha,
      hfor log older r1 r2 r3 hlast]
    split_ifs <;> simp [List.count_cons]
  · intro h hmem
    rw [← hjson r1 r2 r3]
    exact (hmemfor log older r1 r2 r3 h hlast).1 hmem
  · intro log2 older2 s1 s2 s3 hl2 e1 e2 e3 e4 e5 e6 e7 e8 e9 h
    have hrows : ([s1.row, s2.row, s3.row] : List ReadingRow) = [r1.row, r2.row, r3.row] := by
      simp [SensorReading.row, e1, e2, e3, e4, e5, e6, e7, e8, e9]
    rw [hmemfor log2 older2 s1 s2 s3 h hl2, hmemfor log older r1 r2 r3 h hlast, hrows]

/-- Witness for C15: asset 0 has four stored readings; exactly one call is
issued for it, with the digest of the JSON text of the last three (in the
example environment the digest is the text itself, a number is written 0 and a
string is written bare). -/
theorem hash_of_three_latest_witness :
    (storeHashes exampleHashEnv exampleLog).count (HashEvent.storePredictiveHash 0
      ("[\x7b\"temperature\":0,\"vibration\":0,\"timestamp\":t2\x7d," ++
        "\x7b\"temperature\":0,\"vibration\":0,\"timestamp\":t3\x7d," ++
        "\x7b\"temperature\":0,\"vibration\":0,\"timestamp\":t4\x7d]")) = 1 :=
  (hash_of_three_latest exampleHashEnv exampleLog 0
    [⟨0, "t1", JSNumber.ofRat 61, JSNumber.ofRat 2⟩]
    ⟨0, "t2", JSNumber.ofRat 62, JSNumber.ofRat 3⟩
    ⟨0, "t3", JSNumber.ofRat 63, JSNumber.ofRat 4⟩
    ⟨0, "t4", JSNumber.ofRat 64, JSNumber.ofRat 5⟩ (by decide) rfl
    (by simp [exampleLog])).2.1

/-! ## Claims about the ban check -/

/-- C17 (as stated, refuted): a counter of 2^53 read from the ledger is 3 or
more, but count.toNumber() throws on it and the catch of the ban check leaves the
user not banned, so Report Fault is still offered. -/
theorem huge_counter_not_banned :
    banStatusEffect "User" (BanRead.count (2 ^ 53)) = ⟨false, true⟩ ∧
      offersReportFault "User" "Operational" (banStatusEffect "User" (BanRead.count (2 ^ 53))) =
        true := by
  have h : banStatusEffect "User" (BanRead.count (2 ^ 53)) = ⟨false, true⟩ := by
    simp [banStatusEffect, toNumber]
  rw [h]
  exact ⟨rfl, by simp [offersReportFault]⟩

/-- C17 (amended): for every counter below 2^53 read from the ledger (the range
in which count.toNumber() returns), the ban check marks a user as banned if and
only if the counter is at least 3: with a count of 0, 1 or 2 the user is not
banned and Report Fault is offered on an Operational asset, with a count of 3 or
more the user is banned and it is not offered. -/
theorem banned_iff_three_misses (n : ℕ) (hn : n < 2 ^ 53) :
    ((banStatusEffect "User" (BanRead.count n)).isBanned = true ↔ 3 ≤ n) ∧
      (banStatusEffect "User" (BanRead.count n)).banChecked = true ∧
      (offersReportFault "User" "Operational" (banStatusEffect "User" (BanRead.count n)) =
        true ↔ n < 3) := by
  have ht : toNumber n = some n := by
    unfold toNumber
    rw [if_pos hn]
  have h : banStatusEffect "User" (BanRead.count n) = ⟨decide (3 ≤ n), true⟩ := by
    simp [banStatusEffect, ht]
  rw [h]
  refine ⟨by simp, rfl, ?_⟩
  simp [offersReportFault]

/-- Witness for C17 (amended): a counter of 3. -/
theorem banned_iff_three_misses_witness :
    ((banStatusEffect "User" (BanRead.count 3)).isBanned = true ↔ 3 ≤ 3) ∧
      (banStatusEffect "User" (BanRead.count 3)).banChecked = true ∧
      (offersReportFault "User" "Operational" (banStatusEffect "User" (BanRead.count 3)) =
        true ↔ 3 < 3) :=
  banned_iff_three_misses 3 (by norm_num)

/-- C18: if reading the ban counter fails (the ledger call throws), the ban
check ends with the user not banned and the check completed, so a User is still
offered Report Fault on an Operational asset (fail-open). -/
theorem ban_check_fails_open (userRole : String) :
    banStatusEffect userRole BanRead.threw = ⟨false, true⟩ ∧
      offersReportFault "User" "Operational" (banStatusEffect "User" BanRead.threw) = true := by
  constructor
  · unfold banStatusEffect
    split_ifs <;> rfl
  · simp [banStatusEffect, offersReportFault]

/-- The render condition of Report Fault: it is offered exactly when the role is
User, the status of the asset is Operational, the state banChecked is set and the
state isBanned is not; in particular not in the initial state, not while isBanned
is set and never on an asset that is not Operational. -/
theorem report_fault_offered_iff (userRole status : String) (st : BanState) :
    (offersReportFault userRole status st = true ↔
        userRole = "User" ∧ status = "Operational" ∧ st.banChecked = true ∧
          st.isBanned = false) ∧
      offersReportFault userRole status initialBanState = false ∧
      (st.isBanned = true → offersReportFault userRole status st = false) ∧
      (status ≠ "Operational" → offersReportFault userRole status st = false) := by
  refine ⟨?_, ?_, ?_, ?_⟩
  · simp [offersReportFault, and_assoc]
  · simp [offersReportFault, initialBanState]
  · intro h
    simp [offersReportFault, h]
  · intro h
    simp [offersReportFault, h]

/-- The render condition at isBanned set, for a User and an Operational asset. -/
theorem report_fault_offered_iff_witness :
    offersReportFault "User" "Operational" ⟨true, true⟩ = false :=
  (report_fault_offered_iff "User" "Operational" ⟨true, true⟩).2.2.1 rfl

/-- C19 (the code at the failing input): the ban check runs only when userRole
changes, although its comment says "check ban status whenever address changes",
and nothing resets isBanned and banChecked.  A panel first rendered for a User
with no false report keeps isBanned = false when the wallet switches to a User
with 3 false reports (a banned user): the next render offers Report Fault on an
Operational asset and no check runs.  Likewise the render that follows a change
of role from Technician to User offers Report Fault before the check of that
user has run. -/
theorem stale_ban_state_offers_report :
    (renderPanel "User" "Operational" (BanRead.count 0) mountedPanel).2 =
        ⟨⟨false, true⟩, some "User"⟩ ∧
      (banStatusEffect "User" (BanRead.count 3)).isBanned = true ∧
      renderPanel "User" "Operational" (BanRead.count 3)
          (renderPanel "User" "Operational" (BanRead.count 0) mountedPanel).2 =
        (true, ⟨⟨false, true⟩, some "User"⟩) ∧
      (renderPanel "Technician" "Operational" (BanRead.count 3) mountedPanel).2 =
        ⟨⟨false, true⟩, some "Technician"⟩ ∧
      renderPanel "User" "Operational" (BanRead.count 3)
          (renderPanel "Technician" "Operational" (BanRead.count 3) mountedPanel).2 =
        (true, ⟨⟨true, true⟩, some "User"⟩) := by
  have h0 : banStatusEffect "User" (BanRead.count 0) = ⟨false, true⟩ := by
    simp [banStatusEffect, toNumber]
  have h3 : banStatusEffect "User" (BanRead.count 3) = ⟨true, true⟩ := by
    simp [banStatusEffect, toNumber]
  have ht : banStatusEffect "Technician" (BanRead.count 3) = ⟨false, true⟩ := by
    simp [banStatusEffect]
  have m1 : (renderPanel "User" "Operational" (BanRead.count 0) mountedPanel).2 =
      ⟨⟨false, true⟩, some "User"⟩ := by
    simp [renderPanel, mountedPanel, h0]
  have m2 : (renderPanel "Technician" "Operational" (BanRead.count 3) mountedPanel).2 =
      ⟨⟨false, true⟩, some "Technician"⟩ := by
    simp [renderPanel, mountedPanel, ht]
  refine ⟨m1, by rw [h3], ?_, m2, ?_⟩
  · rw [m1]
    simp [renderPanel, offersReportFault]
  · rw [m2]
    simp [renderPanel, offersReportFault, h3]

/-! ## Claims about the reading cycle -/

theorem checkThreshold_other (ok : Bool) (b a : ℕ) (t : JSNumber) (cnt : Counters)
    (h : a ≠ b) : (checkThreshold ok b t cnt).1 a = cnt a := by
  unfold checkThreshold
  simp only
  split_ifs <;> simp [setCounter, h]

theorem checkThreshold_call_asset (ok : Bool) (b : ℕ) (t : JSNumber) (cnt : Counters)
    (c : ReportFaultCall) (hc : c ∈ (checkThreshold ok b t cnt).2) : c.assetId = b := by
  rw [checkThreshold_calls] at hc
  split_ifs at hc
  · simp only [List.mem_singleton] at hc
    rw [hc]
  · simp at hc

theorem simulateAssets_skips (ticks : ℕ → AssetTick) (a : ℕ)
    (hst : (ticks a).status ≠ some "Operational") (ids : List ℕ) (st : ServiceState) :
    (simulateAssets ticks ids st).1.log.filter (fun r => decide (r.assetId = a)) =
        st.log.filter (fun r => decide (r.assetId = a)) ∧
      (simulateAssets ticks ids st).1.counters a = st.counters a ∧
      ∀ c ∈ (simulateAssets ticks ids st).2, c.assetId ≠ a := by
  induction ids generalizing st with
  | nil => simp [simulateAssets]
  | cons b rest ih =>
    unfold simulateAssets
    cases hs : (ticks b).status with
    | none => simp
    | some status =>
      simp only
      by_cases hop : status = "Operational"
      · have hba : a ≠ b := by
          intro hab
          subst hab
          exact hst (by rw [hs, hop])
        rw [if_neg (not_not.mpr hop)]
        by_cases hstore : (ticks b).storeOk = true
        · rw [if_pos hstore]
          simp only
          obtain ⟨ih1, ih2, ih3⟩ := ih
            ⟨storeReading st.log b (ticks b).now (ticks b).temperature (ticks b).vibration,
              (checkThreshold (ticks b).reportOk b (ticks b).temperature st.counters).1⟩
          refine ⟨?_, ?_, ?_⟩
          · rw [ih1]
            simp [storeReading, List.filter_append, List.filter_cons, Ne.symm hba]
          · rw [ih2]
            exact checkThreshold_other _ b a _ _ hba
          · intro c hc
            rcases List.mem_append.1 hc with h | h
            · rw [checkThreshold_call_asset _ b _ _ c h]
              exact Ne.symm hba
            · exact ih3 c h
        · rw [if_neg hstore]
          simp
      · rw [if_pos hop]
        exact ih st

/-- C20: in a simulateReadings cycle, when the status fetched from the ledger
for an asset is not "Operational" (or the fetch fails), no reading of that asset
is appended, its counter is unchanged and no reportFault call is issued for it;
so a reading of an asset is stored, or checkThreshold run on it, only if its
status fetched in that cycle is "Operational". -/
theorem non_operational_asset_untouched (ticks : ℕ → AssetTick) (st : ServiceState) (a : ℕ)
    (hst : (ticks a).status ≠ some "Operational") :
    (simulateReadings ticks st).1.log.filter (fun r => decide (r.assetId = a)) =
        st.log.filter (fun r => decide (r.assetId = a)) ∧
      (simulateReadings ticks st).1.counters a = st.counters a ∧
      ∀ c ∈ (simulateReadings ticks st).2, c.assetId ≠ a :=
  simulateAssets_skips ticks a hst ASSET_IDS st

/-- Witness for C20: in the example cycle asset 1 is Broken; starting from an
empty table and the initial counters, nothing is stored, counted or reported
for it. -/
theorem non_operational_asset_untouched_witness :
    (simulateReadings exampleTicks ⟨[], initialCounters⟩).1.log.filter
          (fun r => decide (r.assetId = 1)) =
        ([] : ReadingLog).filter (fun r => decide (r.assetId = 1)) ∧
      (simulateReadings exampleTicks ⟨[], initialCounters⟩).1.counters 1 = initialCounters 1 ∧
      ∀ c ∈ (simulateReadings exampleTicks ⟨[], initialCounters⟩).2, c.assetId ≠ 1 :=
  non_operational_asset_untouched exampleTicks ⟨[], initialCounters⟩ 1
    (by simp [exampleTicks])

/-! ## Claims about failures in the periodic cycles -/

theorem filter_flatMap_of_nodup (f : ℕ → List HashEvent) (b : ℕ)
    (hf : ∀ a, ∀ e ∈ f a, e.assetId = a) (ids : List ℕ) (hn : ids.Nodup) (hb : b ∈ ids) :
    (ids.flatMap f).filter (fun e => decide (e.assetId = b)) = f b := by
  have hself : (f b).filter (fun e => decide (e.assetId = b)) = f b := by
    rw [List.filter_eq_self]
    intro e he
    simp [hf b e he]
  have hnone : ∀ a, a ≠ b → (f a).filter (fun e => decide (e.assetId = b)) = [] := by
    intro a hab
    rw [List.filter_eq_nil_iff]
    intro e he
    simp [hf a e he, hab]
  induction ids with
  | nil => simp at hb
  | cons a rest ih =>
    rw [List.nodup_cons] at hn
    rw [List.flatMap_cons, List.filter_append]
    by_cases hab : a = b
    · subst hab
      have hrest : (rest.flatMap f).filter (fun e => decide (e.assetId = a)) = [] := by
        rw [List.filter_eq_nil_iff]
        intro e he
        rw [List.mem_flatMap] at he
        obtain ⟨c, hc, hec⟩ := he
        have hca : c ≠ a := by
          intro h
          subst h
          exact hn.1 hc
        simp [hf c e hec, hca]
      rw [hself, hrest, List.append_nil]
    · have hb2 : b ∈ rest := by
        rcases List.mem_cons.1 hb with h | h
        · exact absurd h.symm hab
        · exact h
      rw [hnone a hab, ih hn.2 hb2, List.nil_append]

/-- C21: in a storeHashes cycle every asset of ASSET_IDS is processed whatever
happens to the others: the events of the cycle that concern an asset are exactly
those of its own pass through the loop body, which is never empty, so a database
read error or a rejected storePredictiveHash call for one asset (caught and
logged inside its pass) does not prevent the remaining assets from being
processed; an asset with 3 readings whose own read succeeds gets its call. -/
theorem hash_failures_stay_local (env : HashEnv) (log : ReadingLog) (b : ℕ)
    (hb : b ∈ ASSET_IDS) :
    (storeHashes env log).filter (fun e => decide (e.assetId = b)) =
        storeHashesFor env log b ∧
      storeHashesFor env log b ≠ [] ∧
      (env.dbReadOk b = true → (getLastNReadings log b 3).length = 3 →
        HashEvent.storePredictiveHash b
          (env.sha256Hex (rowsToJson env (getLastNReadings log b 3))) ∈ storeHashes env log) := by
  have h1 : (storeHashes env log).filter (fun e => decide (e.assetId = b)) =
      storeHashesFor env log b :=
    filter_flatMap_of_nodup (storeHashesFor env log) b
      (fun a e he => storeHashesFor_assetId env log a e he) ASSET_IDS ASSET_IDS_nodup hb
  refine ⟨h1, ?_, ?_⟩
  · unfold storeHashesFor
    simp only
    split_ifs <;> simp
  · intro hdb hlen
    have hin : HashEvent.storePredictiveHash b
        (env.sha256Hex (rowsToJson env (getLastNReadings log b 3))) ∈
        storeHashesFor env log b := by
      unfold storeHashesFor
      simp only [hdb, if_true, hlen, lt_irrefl, if_false]
      split_ifs <;> simp
    rw [← h1] at hin
    exact (List.mem_filter.1 hin).1

/-- Witness for C21: the database read of asset 0 fails, and asset 2, visited
later in the same cycle, is still processed. -/
theorem hash_failures_stay_local_witness :
    (storeHashes failingHashEnv exampleLog).filter (fun e => decide (e.assetId = 2)) =
        storeHashesFor failingHashEnv exampleLog 2 ∧
      storeHashesFor failingHashEnv exampleLog 2 ≠ [] ∧
      (failingHashEnv.dbReadOk 2 = true → (getLastNReadings exampleLog 2 3).length = 3 →
        HashEvent.storePredictiveHash 2
          (failingHashEnv.sha256Hex (rowsToJson failingHashEnv
            (getLastNReadings exampleLog 2 3))) ∈ storeHashes failingHashEnv exampleLog) :=
  hash_failures_stay_local failingHashEnv exampleLog 2 (by decide)

/-- C22 (the code at the failing input): when getAssetStatus rejects for asset
0, simulateReadings stops there: assets 1 and 2 are Operational in that cycle,
yet no reading is stored for them, their counters are not touched and no call
is issued. -/
theorem status_failure_aborts_cycle :
    (failingTicks 1).status = some "Operational" ∧
      (failingTicks 2).status = some "Operational" ∧
      (simulateReadings failingTicks ⟨[], initialCounters⟩).1.log = [] ∧
      (simulateReadings failingTicks ⟨[], initialCounters⟩).1.counters 1 = 0 ∧
      (simulateReadings failingTicks ⟨[], initialCounters⟩).2 = [] := by
  have h : simulateReadings failingTicks ⟨[], initialCounters⟩ =
      (⟨[], initialCounters⟩, []) := by
    simp [simulateReadings, ASSET_IDS, simulateAssets, failingTicks]
  rw [h]
  simp [failingTicks, initialCounters]

/-- C24: a reading not above 70 never issues a reportFault call, whatever the
prior counter of the asset (so also directly after a trigger whose reportFault
call failed) and whatever the ledger would answer; the counter is 0
afterwards. -/
theorem low_reading_never_reports (ok : Bool) (a : ℕ) (q : ℚ) (cnt : Counters)
    (hq : q ≤ 70) :
    checkThreshold ok a (JSNumber.ofRat q) cnt = (setCounter cnt a 0, []) ∧
      (checkThreshold ok a (JSNumber.ofRat q) cnt).2 = [] ∧
      (checkThreshold ok a (JSNumber.ofRat q) cnt).1 a = 0 := by
  have h : checkThreshold ok a (JSNumber.ofRat q) cnt = (setCounter cnt a 0, []) := by
    unfold checkThreshold
    rw [JSNumber.ofRat_gt_threshold]
    simp [not_lt.mpr hq, setCounter, THRESHOLD_COUNT]
  rw [h]
  simp [setCounter]

/-- Witness for C24: the readings 75, 80, 78 with the report rejected on the
third leave the counter at 3; a reading of 65 then issues no call and resets
it. -/
theorem low_reading_never_reports_witness :
    checkThreshold true 0 (JSNumber.ofRat 65)
          (feedReadings 0 [(JSNumber.ofRat 75, true), (JSNumber.ofRat 80, true),
            (JSNumber.ofRat 78, false)] initialCounters).1 =
        (setCounter (feedReadings 0 [(JSNumber.ofRat 75, true), (JSNumber.ofRat 80, true),
            (JSNumber.ofRat 78, false)] initialCounters).1 0 0, []) ∧
      (checkThreshold true 0 (JSNumber.ofRat 65)
          (feedReadings 0 [(JSNumber.ofRat 75, true), (JSNumber.ofRat 80, true),
            (JSNumber.ofRat 78, false)] initialCounters).1).2 = [] ∧
      (checkThreshold true 0 (JSNumber.ofRat 65)
          (feedReadings 0 [(JSNumber.ofRat 75, true), (JSNumber.ofRat 80, true),
            (JSNumber.ofRat 78, false)] initialCounters).1).1 0 = 0 :=
  low_reading_never_reports true 0 65
    (feedReadings 0 [(JSNumber.ofRat 75, true), (JSNumber.ofRat 80, true),
      (JSNumber.ofRat 78, false)] initialCounters).1 (by norm_num)

/-- C29: checkThreshold(assetId, temperature) changes only the counter of
assetId: the counter of every other asset is the same before and after the
call, for every temperature (fault triggered or not) and every answer of the
ledger. -/
theorem checkThreshold_changes_one_counter (ok : Bool) (assetId other : ℕ) (t : JSNumber)
    (cnt : Counters) (h : other ≠ assetId) :
    (checkThreshold ok assetId t cnt).1 other = cnt other :=
  checkThreshold_other ok assetId other t cnt h

/-- Witness for C29: a trigger on asset 0 whose report is rejected leaves the
counter of asset 1 at 2. -/
theorem checkThreshold_changes_one_counter_witness :
    (checkThreshold false 0 (JSNumber.ofRat 78)
        (setCounter (setCounter initialCounters 0 2) 1 2)).1 1 =
      (setCounter (setCounter initialCounters 0 2) 1 2) 1 :=
  checkThreshold_changes_one_counter false 0 1 (JSNumber.ofRat 78)
    (setCounter (setCounter initialCounters 0 2) 1 2) (by decide)

/-! ## Claims about the cancellation of a fault -/

/-- C23: on a store with at most one row per assetId whose rows carry a user
(what the POST handler guarantees), when the cancelFault ledger call succeeds
and the server answers, handleCancelFault deletes the cost snapshot of the
cancelled asset if there is one: afterwards no row of that asset remains and the
rows of the other assets are unchanged; if cancelFault fails, no DELETE is
issued and the store is unchanged. -/
theorem cancel_clears_snapshot (env : CancelEnv) (a : ℕ) (reason : String)
    (store : GasCostStore) (hnodup : (store.map GasCostRow.assetId).Nodup)
    (husers : ∀ r ∈ store, r.user ≠ "") :
    (env.cancelOk = true → env.listReaches = true → env.deleteReaches = true →
        (handleCancelFault env a reason store).2 =
            store.filter (fun r => !decide (r.assetId = a)) ∧
          (∀ r ∈ (handleCancelFault env a reason store).2, r.assetId ≠ a) ∧
          (∀ r, r.assetId ≠ a →
            (r ∈ (handleCancelFault env a reason store).2 ↔ r ∈ store))) ∧
      (env.cancelOk = false →
        (handleCancelFault env a reason store).2 = store ∧
          ∀ (a' : ℕ) (u : String) (c : ℕ),
            CancelEffect.deleteGasCosts a' u c ∉ (handleCancelFault env a reason store).1) := by
  constructor
  · intro h1 h2 h3
    have hstore : (handleCancelFault env a reason store).2 =
        store.filter (fun r => !decide (r.assetId = a)) := by
      unfold handleCancelFault
      simp only [h1, h2, h3, if_true]
      cases hf : store.find? (fun r => decide (r.assetId = a)) with
      | none =>
        simp only
        rw [List.find?_eq_none] at hf
        symm
        rw [List.filter_eq_self]
        intro r hr
        simpa using hf r hr
      | some row =>
        simp only
        have hrow : row ∈ store := List.mem_of_find?_eq_some hf
        have hra : row.assetId = a := by simpa using List.find?_some hf
        rw [deleteGasCosts_store store row.assetId row.user row.costWei (husers row hrow)]
        apply List.filter_congr
        intro r hr
        by_cases hr2 : r.assetId = a
        · have : r = row :=
            List.inj_on_of_nodup_map hnodup hr hrow (by rw [hr2, hra])
          subst this
          simp [hr2]
        · have : r.assetId ≠ row.assetId := by rw [hra]; exact hr2
          simp [hr2, this]
    refine ⟨hstore, ?_, ?_⟩
    · intro r hr
      rw [hstore, List.mem_filter] at hr
      simpa using hr.2
    · intro r hr
      rw [hstore, List.mem_filter]
      simp [hr]
  · intro h1
    unfold handleCancelFault
    simp [h1]

/-- Witness for C23: the store holds the snapshots of assets 0 and 1; the fault
of asset 0 is cancelled. -/
theorem cancel_clears_snapshot_witness :
    (handleCancelFault ⟨true, true, true⟩ 0 "false alarm"
        [⟨0, exampleUser, 1000, JSNumber.fin false (1 / 2), 5⟩,
          ⟨1, exampleUser, 2000, JSNumber.fin false (1 / 2), 6⟩]).2 =
      ([⟨0, exampleUser, 1000, JSNumber.fin false (1 / 2), 5⟩,
          ⟨1, exampleUser, 2000, JSNumber.fin false (1 / 2), 6⟩] : GasCostStore).filter
        (fun r => !decide (r.assetId = 0)) :=
  ((cancel_clears_snapshot ⟨true, true, true⟩ 0 "false alarm"
    [⟨0, exampleUser, 1000, JSNumber.fin false (1 / 2), 5⟩,
      ⟨1, exampleUser, 2000, JSNumber.fin false (1 / 2), 6⟩]
    (by decide)
    (by
      intro r hr
      simp only [List.mem_cons, List.mem_singleton, List.not_mem_nil, or_false] at hr
      rcases hr with h | h <;> subst h <;> decide)).1 rfl rfl rfl).1

/-! ## Claims about the actions of the panel -/

theorem mem_panelActions (userRole status : String) (st : BanState) (act : PanelAction) :
    act ∈ panelActions userRole status st ↔
      (act = PanelAction.reportFault ∧ offersReportFault userRole status st = true) ∨
      (act = PanelAction.cancelFault ∧ userRole = "Admin" ∧ status = "Broken") ∨
      (act = PanelAction.startMaintenance ∧ userRole = "Technician" ∧ status = "Broken") ∨
      ((act = PanelAction.replaceItem ∨ act = PanelAction.completeMaintenance) ∧
        userRole = "Technician" ∧ status = "Under Maintenance") := by
  unfold panelActions
  simp only [List.mem_append]
  by_cases h1 : offersReportFault userRole status st = true <;>
    by_cases h2 : userRole = "Admin" ∧ status = "Broken" <;>
    by_cases h3 : userRole = "Technician" ∧ status = "Broken" <;>
    by_cases h4 : userRole = "Technician" ∧ status = "Under Maintenance" <;>
    simp only [h1, h2, h3, h4, if_true, if_false, List.mem_singleton, List.mem_cons,
      List.not_mem_nil, or_false, false_or, and_true, and_false, Bool.false_eq_true] <;>
    tauto

/-- C26: for every role, asset status and ban state, the panel offers an action
only where the lifecycle guard allows it: Cancel Fault exactly to an Admin on a
Broken asset, Start Maintenance exactly to a Technician on a Broken asset,
Replace Item and Complete Maintenance exactly to a Technician on an Under
Maintenance asset, Report Fault only to a User on an Operational asset, and
nothing for any other pair of role and status. -/
theorem panel_actions_follow_guard (userRole status : String) (st : BanState)
    (act : PanelAction) :
    (act ∈ panelActions userRole status st → lifecycleGuard userRole status act = true) ∧
      (PanelAction.cancelFault ∈ panelActions userRole status st ↔
        userRole = "Admin" ∧ status = "Broken") ∧
      (PanelAction.startMaintenance ∈ panelActions userRole status st ↔
        userRole = "Technician" ∧ status = "Broken") ∧
      (PanelAction.replaceItem ∈ panelActions userRole status st ↔
        userRole = "Technician" ∧ status = "Under Maintenance") ∧
      (PanelAction.completeMaintenance ∈ panelActions userRole status st ↔
        userRole = "Technician" ∧ status = "Under Maintenance") ∧
      (PanelAction.reportFault ∈ panelActions userRole status st ↔
        userRole = "User" ∧ status = "Operational" ∧ st.banChecked = true ∧
          st.isBanned = false) ∧
      (¬ (userRole = "User" ∧ status = "Operational") →
        ¬ (userRole = "Admin" ∧ status = "Broken") →
        ¬ (userRole = "Technician" ∧ status = "Broken") →
        ¬ (userRole = "Technician" ∧ status = "Under Maintenance") →
        panelActions userRole status st = []) := by
  have hrep : offersReportFault userRole status st = true ↔
      userRole = "User" ∧ status = "Operational" ∧ st.banChecked = true ∧
        st.isBanned = false := by
    simp [offersReportFault, and_assoc]
  refine ⟨?_, ?_, ?_, ?_, ?_, ?_, ?_⟩
  · intro h
    rw [mem_panelActions] at h
    rcases h with ⟨rfl, h⟩ | ⟨rfl, h1, h2⟩ | ⟨rfl, h1, h2⟩ | ⟨rfl | rfl, h1, h2⟩
    · rw [hrep] at h
      simp [lifecycleGuard, h.1, h.2.1]
    · simp [lifecycleGuard, h1, h2]
    · simp [lifecycleGuard, h1, h2]
    · simp [lifecycleGuard, h1, h2]
    · simp [lifecycleGuard, h1, h2]
  · rw [mem_panelActions]
    simp
  · rw [mem_panelActions]
    simp
  · rw [mem_panelActions]
    simp
  · rw [mem_panelActions]
    simp
  · rw [mem_panelActions, ← hrep]
    simp
  · intro h1 h2 h3 h4
    have h0 : ¬ offersReportFault userRole status st = true := by
      rw [hrep]
      intro h
      exact h1 ⟨h.1, h.2.1⟩
    unfold panelActions
    simp [h0, h2, h3, h4]

/-- Witness for C26: a Technician in front of an Operational asset is offered
nothing. -/
theorem panel_actions_follow_guard_witness :
    panelActions "Technician" "Operational" ⟨false, true⟩ = [] :=
  (panel_actions_follow_guard "Technician" "Operational" ⟨false, true⟩
    PanelAction.reportFault).2.2.2.2.2.2 (by decide) (by decide) (by decide) (by decide)

/-! ## Claims about the pending and the paid lists -/

theorem pendingFrom_eq (a : ℕ) (ledger : MaintenanceLedger) :
    pendingFrom a ledger =
      ((recordsFrom a ledger).filter (fun x => x.2.readyForPayment && !x.2.isPaid)).map
        (fun x => (⟨x.1, x.2.technician⟩ : PendingEntry)) := by
  induction ledger generalizing a with
  | nil => rfl
  | cons records rest ih =>
    simp only [pendingFrom, recordsFrom, List.filter_append, List.map_append, ih,
      List.filter_map, List.map_map]
    rfl

theorem paidEntries_eq (a : ℕ) (records : List CompletedMaintenance) (l : List PaidEntry)
    (h : paidEntries a records = some l) :
    l.map (fun e => (e.assetId, e.technician)) =
      (records.filter (fun cm => cm.isPaid)).map (fun cm => (a, cm.technician)) := by
  induction records generalizing l with
  | nil =>
    simp only [paidEntries, Option.some.injEq] at h
    subst h
    rfl
  | cons cm rest ih =>
    unfold paidEntries at h
    by_cases hp : cm.isPaid = true
    · simp only [hp, if_true] at h
      cases ht : toNumber cm.paymentTimestamp with
      | none => simp [ht] at h
      | some ts =>
        cases hr : paidEntries a rest with
        | none => simp [ht, hr] at h
        | some l2 =>
          simp only [ht, hr, Option.some.injEq] at h
          subst h
          simp [List.filter_cons, hp, ih l2 hr]
    · simp only [hp, if_false] at h
      simp [List.filter_cons, hp, ih l h]

theorem paidFrom_eq (a : ℕ) (ledger : MaintenanceLedger) (l : List PaidEntry)
    (h : paidFrom a ledger = some l) :
    l.map (fun e => (e.assetId, e.technician)) =
      ((recordsFrom a ledger).filter (fun x => x.2.isPaid)).map
        (fun x => (x.1, x.2.technician)) := by
  induction ledger generalizing a l with
  | nil =>
    simp only [paidFrom, Option.some.injEq] at h
    subst h
    rfl
  | cons records rest ih =>
    unfold paidFrom at h
    cases h1 : paidEntries a records with
    | none => simp [h1] at h
    | some l1 =>
      cases h2 : paidFrom (a + 1) rest with
      | none => simp [h1, h2] at h
      | some l2 =>
        simp only [h1, h2, Option.some.injEq] at h
        subst h
        simp only [recordsFrom, List.map_append, List.filter_append, paidEntries_eq a records l1 h1,
          ih (a + 1) l2 h2, List.filter_map, List.map_map]
        rfl

theorem filter_disjoint_length {α : Type} (p q : α → Bool) (l : List α)
    (h : ∀ x ∈ l, ¬ (p x = true ∧ q x = true)) :
    (l.filter p).length + (l.filter q).length ≤ l.length := by
  induction l with
  | nil => simp
  | cons x xs ih =>
    have hx := h x (by simp)
    have ih2 := ih (fun y hy => h y (by simp [hy]))
    by_cases hp : p x = true
    · have hq : q x = false := by
        cases hqx : q x
        · rfl
        · exact absurd ⟨hp, hqx⟩ hx
      simp only [List.filter_cons, hp, hq, if_true, List.length_cons, Bool.false_eq_true,
        if_false]
      omega
    · have hp2 : p x = false := by simpa using hp
      by_cases hq : q x = true
      · simp only [List.filter_cons, hp2, hq, if_true, List.length_cons, Bool.false_eq_true,
          if_false]
        omega
      · have hq2 : q x = false := by simpa using hq
        simp only [List.filter_cons, hp2, hq2, List.length_cons, Bool.false_eq_true, if_false]
        omega

/-- C27: loadPendingPayments lists one entry per completed-maintenance record
whose readyForPayment is true and whose isPaid is false, in the order of the
ledger, and no other entry; an already-paid record is never listed as pending,
and when loadPaidPayments succeeds the paid list holds one entry per paid
record, so no record appears in both lists and the two lists together have at
most as many entries as there are records. -/
theorem pending_iff_ready_and_unpaid (ledger : MaintenanceLedger) :
    loadPendingPayments ledger =
        ((recordsFrom 0 ledger).filter (fun x => x.2.readyForPayment && !x.2.isPaid)).map
          (fun x => (⟨x.1, x.2.technician⟩ : PendingEntry)) ∧
      (∀ x ∈ recordsFrom 0 ledger,
        ¬ ((x.2.readyForPayment && !x.2.isPaid) = true ∧ x.2.isPaid = true)) ∧
      (∀ paid, loadPaidPayments ledger = some paid →
        paid.map (fun e => (e.assetId, e.technician)) =
            ((recordsFrom 0 ledger).filter (fun x => x.2.isPaid)).map
              (fun x => (x.1, x.2.technician)) ∧
          (loadPendingPayments ledger).length + paid.length ≤
            (recordsFrom 0 ledger).length) := by
  have hdis : ∀ x ∈ recordsFrom 0 ledger,
      ¬ ((x.2.readyForPayment && !x.2.isPaid) = true ∧ x.2.isPaid = true) := by
    intro x _ h
    obtain ⟨h1, h2⟩ := h
    simp [h2] at h1
  refine ⟨pendingFrom_eq 0 ledger, hdis, ?_⟩
  intro paid hpaid
  have hp := paidFrom_eq 0 ledger paid hpaid
  refine ⟨hp, ?_⟩
  have hlen : paid.length =
      ((recordsFrom 0 ledger).filter (fun x => x.2.isPaid)).length := by
    have := congrArg List.length hp
    simpa using this
  have hpl : (loadPendingPayments ledger).length =
      ((recordsFrom 0 ledger).filter (fun x => x.2.readyForPayment && !x.2.isPaid)).length := by
    unfold loadPendingPayments
    rw [pendingFrom_eq, List.length_map]
  rw [hlen, hpl]
  exact filter_disjoint_length _ _ _ hdis

/-- Witness for C27: asset 0 has a paid record and a record ready for payment,
asset 1 a record not yet ready; only the second record of asset 0 is pending. -/
theorem pending_iff_ready_and_unpaid_witness :
    loadPendingPayments
        [[⟨"techA", true, true, 100, 5, exampleUser, 1⟩, ⟨"techB", true, false, 0, 0, "", 0⟩],
          [⟨"techC", false, false, 0, 0, "", 0⟩]] =
      ((recordsFrom 0
        [[⟨"techA", true, true, 100, 5, exampleUser, 1⟩, ⟨"techB", true, false, 0, 0, "", 0⟩],
          [⟨"techC", false, false, 0, 0, "", 0⟩]]).filter
          (fun x => x.2.readyForPayment && !x.2.isPaid)).map
        (fun x => (⟨x.1, x.2.technician⟩ : PendingEntry)) :=
  (pending_iff_ready_and_unpaid
    [[⟨"techA", true, true, 100, 5, exampleUser, 1⟩, ⟨"techB", true, false, 0, 0, "", 0⟩],
      [⟨"techC", false, false, 0, 0, "", 0⟩]]).1

/-! ## Claims about the timers -/

/-- C28 (the code as written): start schedules storeHashes with a period of
5 * 60 * 1000 = 300 000 ms, that is 5 minutes, not the 180 000 ms (3 minutes) its
comments announce. -/
theorem storeHashes_period_is_five_minutes :
    start = [⟨Job.simulateReadings, 20000⟩, ⟨Job.storeHashes, 300000⟩] ∧
      ∀ t ∈ start, t.job = Job.storeHashes → t.periodMs = 300000 ∧ t.periodMs ≠ 180000 := by
  have h : start = [⟨Job.simulateReadings, 20000⟩, ⟨Job.storeHashes, 300000⟩] := by
    simp [start]
  refine ⟨h, ?_⟩
  intro t ht hj
  rw [h] at ht
  simp only [List.mem_cons, List.mem_singleton, List.not_mem_nil, or_false] at ht
  rcases ht with rfl | rfl
  · simp at hj
  · simp

/-! ## Claims about the prices used at settlement -/

theorem roundMag_one_mul_one : roundMag (1 * 1) = some 1 := by
  have e : ((1 : ℚ) * 1) = 1 := by norm_num
  rw [e]
  exact roundMag_exact 1 0 (2 ^ 52) (by norm_num) (by norm_num) (by norm_num) (by norm_num)
    (by norm_num)

theorem roundMag_one_div_quarter : roundMag (1 / (1 / 4)) = some 4 := by
  have e : ((1 : ℚ) / (1 / 4)) = 4 := by norm_num
  rw [e]
  exact roundMag_exact 4 2 (2 ^ 52) (by norm_num) (by norm_num) (by norm_num) (by norm_num)
    (by norm_num)

theorem floor_four_tokens : ⌊(4 : ℚ) * 10 ^ 18 + 1 / 2⌋₊ = 4000000000000000000 := by
  rw [Nat.floor_eq_iff (by norm_num)]
  norm_num

theorem fiatSpentUsd_sentinel (user : String) :
    fiatSpentUsd ⟨user, 10 ^ 18, fin true 1⟩ = fin true 1 := by
  have h1 : gasCostPOL (10 ^ 18) = fin false 1 := round_of_roundMag false _ 1 roundMag_one
  simp only [fiatSpentUsd, h1, mul_fin]
  exact round_of_roundMag _ _ _ roundMag_one_mul_one

theorem reimbPolNow_sentinel (user : String) :
    reimbPolNow ⟨user, 10 ^ 18, fin true 1⟩ (PriceFetch.price (fin false (1 / 4))) =
      fin true 4 := by
  have hcur : currentPolUsd ⟨user, 10 ^ 18, fin true 1⟩ (PriceFetch.price (fin false (1 / 4))) =
      fin false (1 / 4) := by
    simp [currentPolUsd, truthy]
  unfold reimbPolNow
  rw [fiatSpentUsd_sentinel, hcur, div_fin _ _ _ _ (by norm_num)]
  exact round_of_roundMag _ _ _ roundMag_one_div_quarter

theorem userCostWei_sentinel (user : String) :
    userCostWei ⟨user, 10 ^ 18, fin true 1⟩ (PriceFetch.price (fin false (1 / 4))) =
      some (-4000000000000000000) := by
  unfold userCostWei
  rw [reimbPolNow_sentinel]
  simp only [toFixed18]
  rw [if_neg (by norm_num), floor_four_tokens]
  simp [parseEtherFixed]

/-- C25 (the code at the failing input): the price stored when the price fetch
fails at filing time is the sentinel -1; for a snapshot of 1 token carrying it
and a live price of 0.25 USD, payTechnicianFor derives a fiatSpentUsd of -1 and
a reimbursement of -4 * 10^18 wei, which it passes to confirmPayment: nothing
detects the sentinel. -/
theorem sentinel_price_not_detected :
    priceToStore none none = fin true 1 ∧
      fiatSpentUsd ⟨exampleUser, 10 ^ 18, fin true 1⟩ = fin true 1 ∧
      signed true 1 < 0 ∧
      (payTechnicianFor
        (exampleEnv (some ⟨exampleUser, 10 ^ 18, fin true 1⟩)
          (PriceFetch.price (fin false (1 / 4))) false) 0 []).1 =
        [Effect.fetchPolPrice,
          Effect.confirmPayment 0 (10 ^ 18) exampleUser (-4000000000000000000),
          Effect.alert Alert.error] := by
  refine ⟨rfl, fiatSpentUsd_sentinel exampleUser, by norm_num [signed], ?_⟩
  rw [payTechnicianFor_snapshot _ 0 [] "1" (10 ^ 18) ⟨exampleUser, 10 ^ 18, fin true 1⟩
    (-4000000000000000000) rfl (by decide) rfl rfl (userCostWei_sentinel exampleUser)]
  simp [settleOnChain, exampleEnv]

/-- C30: when the polUsd of the snapshot is not zero, the price payTechnicianFor
divides by is never zero: a fetched price that is 0, null or absent (or a failed
fetch) leaves the snapshot price in place, any other fetched price is used as it
is; so the quotient reimbPolNow is computed with a divisor different from
zero. -/
theorem divisor_never_zero (cd : CostData) (pf : PriceFetch)
    (hp : ∀ s, cd.polUsd ≠ fin s 0) :
    (∀ s, currentPolUsd cd pf ≠ fin s 0) ∧
      (∀ s, currentPolUsd cd (PriceFetch.price (fin s 0)) = cd.polUsd) ∧
      currentPolUsd cd PriceFetch.noPrice = cd.polUsd ∧
      currentPolUsd cd PriceFetch.threw = cd.polUsd ∧
      (∀ s m t n, fiatSpentUsd cd = fin s m → currentPolUsd cd pf = fin t n →
        n ≠ 0 ∧ reimbPolNow cd pf = JSNumber.round (xor s t) (m / n)) := by
  have h1 : ∀ s, currentPolUsd cd pf ≠ fin s 0 := by
    intro s
    cases pf with
    | threw => exact hp s
    | noPrice => exact hp s
    | price q =>
      simp only [currentPolUsd]
      by_cases hq : q.truthy = true
      · rw [if_pos hq]
        intro h
        rw [h] at hq
        simp [truthy] at hq
      · rw [if_neg hq]
        exact hp s
  refine ⟨h1, ?_, rfl, rfl, ?_⟩
  · intro s
    simp [currentPolUsd, truthy]
  · intro s m t n hf hc
    have hn : n ≠ 0 := by
      intro h0
      subst h0
      exact h1 t hc
    refine ⟨hn, ?_⟩
    unfold reimbPolNow
    rw [hf, hc, div_fin _ _ _ _ hn]

/-- Witness for C30: a snapshot filed at 0.50 USD and a fetched price of 0. -/
theorem divisor_never_zero_witness :
    currentPolUsd ⟨exampleUser, 10 ^ 18, fin false (1 / 2)⟩ (PriceFetch.price (fin false 0)) =
      fin false (1 / 2) :=
  (divisor_never_zero ⟨exampleUser, 10 ^ 18, fin false (1 / 2)⟩ (PriceFetch.price (fin false 0))
    (by
      intro s h
      simp only [fin.injEq] at h
      norm_num at h)).2.1 false

end MaintenanceReview
